import Mathlib

/-!
Verification of the fluent runtime message-resolution engine
(fluent/runtime/resolver.py) and the locale-fallback bundle lookup
(fluent/runtime/fallback.py).

The resolver tree, the resolver environment and the evaluation rules are
shallowly embedded below.  Python mutable state (the per-call
ResolverEnvironment) is threaded explicitly: every evaluation function
takes an environment and returns the (possibly modified) environment next
to its result.  Python exceptions used as a fatal-abort channel (the
ValueError raised for the resource limits, the AttributeError raised by a
select expression with no chosen variant, the TypeError raised when a
value-less entry is called) are modelled by the Except error channel; on
that channel the environment is returned as it was at the moment of the
raise, matching the mutations that have already happened to the shared
Python object.

Recursion through the bundle (message and term references re-enter
pattern evaluation on patterns looked up in the bundle) is not
structural, so the evaluator is indexed by fuel: one unit of fuel is
consumed for each level of expression nesting.  Fuel exhaustion is its
own fatal marker, distinct from every behaviour of the Python code.
-/

set_option maxRecDepth 2048

namespace FluentRuntime

/-- Runtime values of the resolver: Python str, FluentInt (FluentFloat is
not modelled; no claim depends on floats), and FluentNone with its
optional fallback display text. -/
inductive FluentValue where
  | str (s : String)
  | int (n : Int)
  | fnone (name : Option String)
deriving DecidableEq, Repr

/-- An entry of the external-arguments mapping: either a recognised value
(a Python str or a FluentType) or an unsupported Python object. -/
inductive ArgVal where
  | fv (v : FluentValue)
  | unsupported
deriving DecidableEq, Repr

/-- Collected (non-fatal) errors, mirroring the error objects appended to
the environment error list by resolver.py. -/
inductive Err where
  | cyclic
  | unknownRef (refId : String)
  | formatErr (refId : String)
  | refErr (msg : String)
  | typeErr (name : String)
  | funcRaise (msg : String)
deriving DecidableEq, Repr

/-- Fatal aborts: the two resource-limit ValueErrors of resolver.py, the
AttributeError raised by a select expression whose scan chose no variant,
the TypeError raised when an entry with value None is called, and the
fuel-exhaustion marker of this embedding. -/
inductive Fatal where
  | tooManyParts
  | partTooLong
  | noVariant
  | noneValue
  | outOfFuel
deriving DecidableEq, Repr

mutual

/-- The resolver tree: one closed variant type for the resolver node
classes of resolver.py (TextElement, Placeable, NeverIsolatingPlaceable,
StringLiteral, NumberLiteral, Identifier, VariableReference,
MessageReference, TermReference, FunctionReference, SelectExpression). -/
inductive Expr where
  | text (s : String)
  | placeable (inner : Expr)
  | neverIsolating (inner : Expr)
  | stringLit (s : String)
  | numberLit (n : Int)
  | identifier (name : String)
  | varRef (name : String)
  | msgRef (id : String) (attr : Option String)
  | termRef (id : String) (attr : Option String) (arguments : Option CallArgs)
  | funcRef (id : String) (arguments : CallArgs)
  | select (selector : Expr) (variants : List Variant)

inductive Variant where
  | mk (key : Expr) (isDefault : Bool) (value : Pattern)

inductive Pattern where
  | mk (id : Nat) (elements : List Expr)

inductive CallArgs where
  | mk (positional : List Expr) (named : List NamedArg)

inductive NamedArg where
  | mk (name : String) (value : Expr)

end

/-- The variant key node. -/
def Variant.key : Variant → Expr
  | .mk k _ _ => k

/-- Whether the variant carries the default flag. -/
def Variant.isDefault : Variant → Bool
  | .mk _ d _ => d

/-- The variant body pattern. -/
def Variant.value : Variant → Pattern
  | .mk _ _ v => v

/-- The pattern identity used for membership in active_patterns
(object identity of the Python pattern node). -/
def Pattern.id : Pattern → Nat
  | .mk i _ => i

/-- The element list of a pattern. -/
def Pattern.elements : Pattern → List Expr
  | .mk _ es => es

/-- An entry (Message or Term): optional value pattern plus the
attribute-name-to-pattern mapping built by EntryResolver. -/
structure Entry where
  value : Option Pattern
  attributes : List (String × Pattern)

/-- Result type of a registered function: a value, or a raised exception
message (caught by FunctionReference and collected). -/
def FluentFunction : Type :=
  List FluentValue → List (String × FluentValue) → Except String FluentValue

/-- The bundle (the env.context object of resolver.py): entry tables,
function registry, the use_isolating flag, the plural-category classifier
of the primary locale, and the locale number formatter used by
FluentType.format.  The bundle class itself (bundle.py) is not under
src: the fields here are modelled from the spec and from the attribute
accesses of resolver.py. -/
structure Bundle where
  messages : List (String × Entry)
  terms : List (String × Entry)
  functions : List (String × FluentFunction)
  use_isolating : Bool
  plural_form : Int → String
  format_number : Int → String

/-- CurrentEnvironment of resolver.py: the active argument mapping and
the flag controlling whether a missing-argument lookup is reported. -/
structure CurrentEnvironment where
  args : List (String × ArgVal)
  error_for_missing_arg : Bool
deriving DecidableEq, Repr

/-- ResolverEnvironment of resolver.py minus the read-only context:
collected errors, the part-count budget, the cycle-detection set and the
current scope. -/
structure Env where
  part_count : Nat
  active_patterns : List Nat
  errors : List Err
  current : CurrentEnvironment
deriving DecidableEq, Repr

/-- Maximum character count of a placeable, from resolver.py. -/
def MAX_PART_LENGTH : Nat := 2500

/-- Maximum number of pattern parts in one resolution, from Pattern. -/
def Pattern.MAX_PARTS : Nat := 1000

/-- Unicode FIRST STRONG ISOLATE, prepended by isolating placeables. -/
def FSI : String := "⁨"

/-- Unicode POP DIRECTIONAL ISOLATE, appended by isolating placeables. -/
def PDI : String := "⁩"

/-- First-match association-list lookup (the Python dict lookups of
resolver.py; the dicts are built without duplicate keys). -/
def alookup {β : Type} : List (String × β) → String → Option β
  | [], _ => none
  | (k, v) :: rest, key => if k == key then some v else alookup rest key

/-- Python dict insertion: replace the value of an existing key in place,
otherwise append the binding. -/
def dictInsert {β : Type} (xs : List (String × β)) (key : String) (v : β) :
    List (String × β) :=
  if xs.any (fun p => p.1 == key) then
    xs.map (fun p => if p.1 == key then (key, v) else p)
  else
    xs ++ [(key, v)]

/-- is_number of resolver.py (ints only in this embedding). -/
def is_number : FluentValue → Bool
  | .int _ => true
  | _ => false

/-- Whether a value is FluentNone-tagged. -/
def isFluentNone : FluentValue → Bool
  | .fnone _ => true
  | _ => false

/-- Python equality on runtime values, as used by the final comparison of
the match function: numbers compare by value, strings by value, values of
different kinds are unequal. -/
def feq : FluentValue → FluentValue → Bool
  | .int a, .int b => a == b
  | .str a, .str b => a == b
  | _, _ => false

/-- The plural-rule comparison of the match function:
env.context._plural_form(val1) == val2. -/
def pluralCompare (ctx : Bundle) (val1 val2 : FluentValue) : Bool :=
  match val1, val2 with
  | .int n, .str s => ctx.plural_form n == s
  | _, _ => false

/-- Fuelled body of the match function of resolver.py; the only recursive
call is the argument swap, which needs a single extra step. -/
def matchValF (ctx : Bundle) : Nat → FluentValue → FluentValue → Bool
  | 0, _, _ => false
  | fuel + 1, val1, val2 =>
    if isFluentNone val1 then false
    else if isFluentNone val2 then false
    else if is_number val1 then
      if !is_number val2 then pluralCompare ctx val1 val2
      else feq val1 val2
    else if is_number val2 then matchValF ctx fuel val2 val1
    else feq val1 val2

/-- The match function of resolver.py.  Two steps of fuel suffice: the
swapped call starts from a numeric first argument and cannot swap
again. -/
def matchVal (ctx : Bundle) (val1 val2 : FluentValue) : Bool :=
  matchValF ctx 2 val1 val2

/-- The resolve helper of resolver.py: FluentType values are rendered
with the bundle locale (no length check), strings are length-checked
against MAX_PART_LENGTH and returned as they are. -/
def resolveVal (ctx : Bundle) : FluentValue → Except Fatal String
  | .int n => .ok (ctx.format_number n)
  | .fnone name => .ok (name.getD "???")
  | .str s =>
    if s.length > MAX_PART_LENGTH then .error .partTooLong else .ok s

/-- Sequential evaluation of a list, threading the environment and
propagating the first fatal abort (the evaluation order of the Python
list and generator comprehensions of resolver.py). -/
def evalSeq {α β : Type} (step : α → Env → Except Fatal β × Env) :
    List α → Env → Except Fatal (List β) × Env
  | [], env => (.ok [], env)
  | a :: rest, env =>
    match step a env with
    | (.error f, env1) => (.error f, env1)
    | (.ok b, env1) =>
      match evalSeq step rest env1 with
      | (.error f, env2) => (.error f, env2)
      | (.ok bs, env2) => (.ok (b :: bs), env2)

/-- Concatenation of the resolved parts (the str.join call of
Pattern.__call__). -/
def concatParts : List String → String
  | [] => ""
  | s :: rest => s ++ concatParts rest

/-- One pattern element: evaluate the element node, then pass the result
through the resolve helper (resolve(element(env), env)). -/
def elemStep (ev : Expr → Env → Except Fatal FluentValue × Env)
    (ctx : Bundle) (e : Expr) (env : Env) : Except Fatal String × Env :=
  match ev e env with
  | (.error f, env1) => (.error f, env1)
  | (.ok v, env1) =>
    match resolveVal ctx v with
    | .error f => (.error f, env1)
    | .ok s => (.ok s, env1)

/-- The element loop of Pattern.__call__, with each element resolved. -/
def evalElemsWith (ev : Expr → Env → Except Fatal FluentValue × Env)
    (ctx : Bundle) (es : List Expr) (env : Env) :
    Except Fatal String × Env :=
  match evalSeq (elemStep ev ctx) es env with
  | (.error f, env1) => (.error f, env1)
  | (.ok parts, env1) => (.ok (concatParts parts), env1)

/-- Pattern.__call__ of resolver.py: cycle guard appending a cyclic
reference error, part-count budget guard raising the fatal ValueError,
element evaluation, part-count charge, and removal from active_patterns.
There is no try/finally in the source, so a fatal abort propagating out
of the element loop leaves the pattern id in active_patterns. -/
def evalPatternWith (evElems : List Expr → Env → Except Fatal String × Env)
    (p : Pattern) (env : Env) : Except Fatal FluentValue × Env :=
  if p.id ∈ env.active_patterns then
    (.ok (.fnone none), { env with errors := env.errors ++ [.cyclic] })
  else
    let env1 := { env with active_patterns := p.id :: env.active_patterns }
    if (p.elements.length : Int) > (Pattern.MAX_PARTS : Int) - (env1.part_count : Int) then
      (.error .tooManyParts,
        { env1 with active_patterns := env1.active_patterns.erase p.id })
    else
      match evElems p.elements env1 with
      | (.error f, env2) => (.error f, env2)
      | (.ok s, env2) =>
        (.ok (.str s),
          { env2 with
            part_count := env2.part_count + p.elements.length,
            active_patterns := env2.active_patterns.erase p.id })

/-- Modelled from the spec: reference_to_id of fluent/runtime/utils.py is
not under src; the spec describes the unknown-reference placeholder as a
visible rendering of the reference id as written, so term references keep
their leading dash and attribute references their dotted suffix. -/
def reference_to_id (isTerm : Bool) (id : String) (attr : Option String) :
    String :=
  (if isTerm then "-" else "") ++ id ++
    (match attr with
     | some a => "." ++ a
     | none => "")

/-- EntryReference.__call__ of resolver.py: look the id up in the term or
message table of the bundle, pick the attribute pattern or the value
pattern, and run it; a LookupError (unknown id or unknown attribute)
becomes a collected unknown-reference error with a visible placeholder.
The entry-lookup itself is a bundle method not under src and is modelled
from the spec as the identifier-to-Entry mapping of the bundle.  Calling
an entry whose value is None raises an uncaught TypeError, modelled by
the noneValue fatal. -/
def evalEntryRefWith (evPat : Pattern → Env → Except Fatal FluentValue × Env)
    (ctx : Bundle) (isTerm : Bool) (id : String) (attr : Option String)
    (env : Env) : Except Fatal FluentValue × Env :=
  let refId := reference_to_id isTerm id attr
  match alookup (if isTerm then ctx.terms else ctx.messages) id with
  | none =>
    (.ok (.fnone (some ("\x7b" ++ refId ++ "\x7d"))),
      { env with errors := env.errors ++ [.unknownRef refId] })
  | some entry =>
    match attr with
    | some a =>
      match alookup entry.attributes a with
      | none =>
        (.ok (.fnone (some ("\x7b" ++ refId ++ "\x7d"))),
          { env with errors := env.errors ++ [.unknownRef refId] })
      | some pat => evPat pat env
    | none =>
      match entry.value with
      | none => (.error .noneValue, env)
      | some pat => evPat pat env

/-- Evaluation of one named call argument: the kwarg value expression is
evaluated and paired with the kwarg name. -/
def namedArgStep (ev : Expr → Env → Except Fatal FluentValue × Env) :
    NamedArg → Env → Except Fatal (String × FluentValue) × Env
  | NamedArg.mk n value, env =>
    match ev value env with
    | (.error f, env1) => (.error f, env1)
    | (.ok v, env1) => (.ok (n, v), env1)

/-- Evaluation of named call arguments into the Python dict built by the
kwargs comprehensions of TermReference and FunctionReference. -/
def evalNamedValsWith (ev : Expr → Env → Except Fatal FluentValue × Env) :
    List NamedArg → Env → Except Fatal (List (String × FluentValue)) × Env :=
  fun nas env =>
    match evalSeq (namedArgStep ev) nas env with
    | (.error f, env1) => (.error f, env1)
    | (.ok pairs, env1) =>
      (.ok (pairs.foldl (fun d p => dictInsert d p.1 p.2) []), env1)

/-- The variant loop of select_from_select_expression: record the last
default seen so far, evaluate the variant key, stop at the first key the
match function accepts. -/
def scanVariants (ev : Expr → Env → Except Fatal FluentValue × Env)
    (ctx : Bundle) (key : FluentValue) :
    List Variant → Option Variant → Env →
    Except Fatal (Option Variant) × Env
  | [], default, env => (.ok default, env)
  | v :: rest, default, env =>
    let default1 := if v.isDefault then some v else default
    match ev v.key env with
    | (.error f, env1) => (.error f, env1)
    | (.ok kv, env1) =>
      if matchVal ctx key kv then (.ok (some v), env1)
      else scanVariants ev ctx key rest default1 env1

/-- The with env.modified_for_term_reference block of
TermReference.__call__: swap in a fresh current scope holding the call
arguments with missing-argument reporting disabled, run the entry
reference, and restore the saved scope on normal return.  The context
manager has no try/finally, so the scope is not restored when a fatal
abort propagates out of the body. -/
def termScopeWith (evPat : Pattern → Env → Except Fatal FluentValue × Env)
    (ctx : Bundle) (id : String) (attr : Option String)
    (kwargs : List (String × ArgVal)) (env : Env) :
    Except Fatal FluentValue × Env :=
  let saved := env.current
  let env2 := { env with current := ⟨kwargs, false⟩ }
  match evalEntryRefWith evPat ctx true id attr env2 with
  | (.ok v, env3) => (.ok v, { env3 with current := saved })
  | (.error f, env3) => (.error f, env3)

/-- One evaluation step: the __call__ methods of every resolver node
class of resolver.py, with every recursive evaluation delegated to the
parameter ev (the evaluator with one unit of fuel less). -/
def evalStep (ev : Bundle → Expr → Env → Except Fatal FluentValue × Env)
    (ctx : Bundle) (e : Expr) (env : Env) : Except Fatal FluentValue × Env :=
  let evPat : Pattern → Env → Except Fatal FluentValue × Env :=
    fun p env => evalPatternWith (evalElemsWith (ev ctx) ctx) p env
  match e with
  | .text s => (.ok (.str s), env)
  | .stringLit s => (.ok (.str s), env)
  | .numberLit n => (.ok (.int n), env)
  | .identifier name => (.ok (.str name), env)
  | .varRef name =>
    match alookup env.current.args name with
    | none =>
      if env.current.error_for_missing_arg then
        (.ok (.fnone (some name)),
          { env with errors := env.errors ++ [.refErr ("Unknown external: " ++ name)] })
      else
        (.ok (.fnone (some name)), env)
    | some (.fv v) => (.ok v, env)
    | some .unsupported =>
      (.ok (.fnone (some name)),
        { env with errors := env.errors ++ [.typeErr name] })
  | .placeable inner =>
    match ev ctx inner env with
    | (.error f, env1) => (.error f, env1)
    | (.ok v, env1) =>
      match resolveVal ctx v with
      | .error f => (.error f, env1)
      | .ok s =>
        (.ok (.str (if ctx.use_isolating then FSI ++ s ++ PDI else s)), env1)
  | .neverIsolating inner =>
    match ev ctx inner env with
    | (.error f, env1) => (.error f, env1)
    | (.ok v, env1) =>
      match resolveVal ctx v with
      | .error f => (.error f, env1)
      | .ok s => (.ok (.str s), env1)
  | .msgRef id attr => evalEntryRefWith evPat ctx false id attr env
  | .termRef id attr arguments =>
    match arguments with
    | none => termScopeWith evPat ctx id attr [] env
    | some (CallArgs.mk pos named) =>
      let env0 :=
        if pos.isEmpty then env
        else { env with errors := env.errors ++ [.formatErr (reference_to_id true id attr)] }
      match evalNamedValsWith (ev ctx) named env0 with
      | (.error f, env1) => (.error f, env1)
      | (.ok kwargs, env1) =>
        termScopeWith evPat ctx id attr
          (kwargs.map (fun p => (p.1, ArgVal.fv p.2))) env1
  | .funcRef id (CallArgs.mk pos named) =>
    match evalSeq (ev ctx) pos env with
    | (.error f, env1) => (.error f, env1)
    | (.ok args, env1) =>
      match evalNamedValsWith (ev ctx) named env1 with
      | (.error f, env2) => (.error f, env2)
      | (.ok kwargs, env2) =>
        match alookup ctx.functions id with
        | none =>
          (.ok (.fnone (some (id ++ "()"))),
            { env2 with errors := env2.errors ++ [.refErr ("Unknown function: " ++ id)] })
        | some f =>
          match f args kwargs with
          | .ok v => (.ok v, env2)
          | .error emsg =>
            (.ok (.fnone (some (id ++ "()"))),
              { env2 with errors := env2.errors ++ [.funcRaise emsg] })
  | .select selector variants =>
    match ev ctx selector env with
    | (.error f, env1) => (.error f, env1)
    | (.ok key, env1) =>
      match scanVariants (ev ctx) ctx key variants none env1 with
      | (.error f, env2) => (.error f, env2)
      | (.ok none, env2) => (.error .noVariant, env2)
      | (.ok (some v), env2) => evPat v.value env2

/-- The fuelled evaluator tying evalStep: one unit of fuel per level of
expression nesting. -/
def evalExpr : Nat → Bundle → Expr → Env → Except Fatal FluentValue × Env
  | 0, _, _, env => (.error .outOfFuel, env)
  | fuel + 1, ctx, e, env => evalStep (evalExpr fuel) ctx e env

/-- The element loop at a given fuel level. -/
def evalElems (fuel : Nat) (ctx : Bundle) :
    List Expr → Env → Except Fatal String × Env :=
  evalElemsWith (evalExpr fuel ctx) ctx

/-- Pattern.__call__ at a given fuel level: the elements of the pattern
are evaluated with the given fuel. -/
def evalPattern (fuel : Nat) (ctx : Bundle) :
    Pattern → Env → Except Fatal FluentValue × Env :=
  evalPatternWith (evalElems fuel ctx)

/-- Modelled from the spec: the render-to-display-string capability of
the value model (types.py is not under src).  FluentNone renders its
fallback text, or ??? when it has none; numbers render through the
locale formatter of the bundle. -/
def valueToStr (ctx : Bundle) : FluentValue → String
  | .str s => s
  | .int n => ctx.format_number n
  | .fnone name => name.getD "???"

/-- The fresh per-call ResolverEnvironment built for one top-level
resolution: empty error list, zero part count, empty cycle set, and a
current scope holding the caller arguments with missing-argument
reporting enabled. -/
def freshEnv (args : List (String × ArgVal)) : Env :=
  { part_count := 0, active_patterns := [], errors := [],
    current := { args := args, error_for_missing_arg := true } }

/-- Modelled from the spec: FluentBundle.format_pattern is not under
src.  The spec describes it as the top-level resolution entry: a
ResolverEnvironment is created fresh per call, the pattern is evaluated
against it, and the string plus the collected error list are returned;
a guard violation is a fatal result on a channel distinct from the
collected errors and aborts the whole resolution. -/
def format_pattern (fuel : Nat) (ctx : Bundle) (pat : Pattern)
    (args : List (String × ArgVal)) : Except Fatal (String × List Err) :=
  match evalPattern fuel ctx pat (freshEnv args) with
  | (.ok v, env1) => .ok (valueToStr ctx v, env1.errors)
  | (.error f, _) => .error f

/-- The mutable lookup state of FluentLocalization: the materialised
bundle cache and the bundles not yet pulled from the lazy iterator.  The
iterator output is a fixed bundle sequence because locales, resource ids
and loader output are fixed at construction. -/
structure LocState where
  bundle_cache : List Bundle
  bundle_it : List Bundle

/-- Modelled from the spec: FluentBundle.has_message (bundle.py is not
under src); the bundle holds an identifier-to-Entry mapping for
messages, and has_message is presence in that mapping. -/
def Bundle.has_message (b : Bundle) (msg_id : String) : Bool :=
  (alookup b.messages msg_id).isSome

/-- Modelled from the spec: FluentBundle.get_message (bundle.py is not
under src); the Entry of the message mapping. -/
def Bundle.get_message (b : Bundle) (msg_id : String) : Option Entry :=
  alookup b.messages msg_id

/-- One iteration of the format_value loop body on one bundle: skip the
bundle unless it has the message and the message has a value pattern,
otherwise format the pattern and keep only the value of the returned
pair (the errors are dropped by format_value). -/
def fvTryBundle (fuel : Nat) (b : Bundle) (msg_id : String)
    (args : List (String × ArgVal)) : Option (Except Fatal String) :=
  if !b.has_message msg_id then none
  else
    match b.get_message msg_id with
    | none => none
    | some msg =>
      match msg.value with
      | none => none
      | some pat => some ((format_pattern fuel b pat args).map Prod.fst)

/-- The format_value loop over an already materialised bundle list. -/
def fvScanList (fuel : Nat) (bs : List Bundle) (msg_id : String)
    (args : List (String × ArgVal)) : Option (Except Fatal String) :=
  match bs with
  | [] => none
  | b :: rest =>
    match fvTryBundle fuel b msg_id args with
    | some r => some r
    | none => fvScanList fuel rest msg_id args

/-- The format_value loop over the not-yet-cached part of the lazy
iterator: each inspected bundle is appended to the cache by the
_bundles generator; the loop stops at the first bundle that qualifies,
and returns the message id itself when the iterator is exhausted.
Returns the result, the bundles pulled into the cache, and the iterator
remainder. -/
def fvPull (fuel : Nat) (msg_id : String) (args : List (String × ArgVal)) :
    List Bundle → Except Fatal String × List Bundle × List Bundle
  | [] => (.ok msg_id, [], [])
  | b :: rest =>
    match fvTryBundle fuel b msg_id args with
    | some r => (r, [b], rest)
    | none =>
      let out := fvPull fuel msg_id args rest
      (out.1, b :: out.2.1, out.2.2)

/-- FluentLocalization.format_value: walk the bundle sequence served by
the caching _bundles generator in order (first the cache, then the lazy
iterator, extending the cache), return the formatted value of the first
bundle that has the message with a non-None value, and fall back to the
message id itself when the sequence is exhausted.  A fatal abort raised
by format_pattern propagates (format_value has no handler). -/
def format_value (fuel : Nat) (st : LocState) (msg_id : String)
    (args : List (String × ArgVal)) : Except Fatal String × LocState :=
  match fvScanList fuel st.bundle_cache msg_id args with
  | some r => (r, st)
  | none =>
    let out := fvPull fuel msg_id args st.bundle_it
    (out.1, ⟨st.bundle_cache ++ out.2.1, out.2.2⟩)

deriving instance DecidableEq for Except

/-- Example bundle with empty tables, an English-style plural rule and
plain number rendering. -/
def exCtx : Bundle :=
  { messages := [], terms := [], functions := [], use_isolating := false,
    plural_form := fun n => if n == 1 then "one" else "other",
    format_number := fun n => toString n }

/-- Example bundle whose plural-category set lacks the one category
(a Turkish-style rule mapping every number to other). -/
def exCtxTr : Bundle :=
  { exCtx with plural_form := fun _ => "other" }

/-- A string one character longer than the placeable length cap. -/
def longStr : String := String.mk (List.replicate 2501 'a')

/-- A pattern with one element more than the whole part budget. -/
def bigPattern : Pattern := Pattern.mk 1 (List.replicate 1001 (Expr.text "x"))

/-- A one-element text pattern. -/
def smallPattern : Pattern := Pattern.mk 2 [Expr.text "hi"]

/-- The select expression num 1 against variants [one] and default
[other]. -/
def selOneOther : Expr :=
  .select (.numberLit 1)
    [Variant.mk (.identifier "one") false (Pattern.mk 11 [.text "one body"]),
     Variant.mk (.identifier "other") true (Pattern.mk 12 [.text "other body"])]

/-- A bundle holding the message m with value text hello. -/
def exBundleM : Bundle :=
  { exCtx with messages :=
      [("m", { value := some (Pattern.mk 21 [Expr.text "hello"]), attributes := [] })] }

/-- A bundle holding the message m whose value pattern overflows the
part budget. -/
def exBundleBig : Bundle :=
  { exCtx with messages := [("m", { value := some bigPattern, attributes := [] })] }

/-- A bundle holding the term t whose body is a placeable variable
reference. -/
def exBundleTerm : Bundle :=
  { exCtx with terms :=
      [("t", { value := some (Pattern.mk 31 [Expr.placeable (Expr.varRef "v")]),
               attributes := [] })] }

/-- An environment whose argument mapping binds the name bad to an
unsupported Python object. -/
def envBadArg : Env := freshEnv [("bad", ArgVal.unsupported)]

/-- The error list is append-only: env1 extends the error list of env. -/
def ErrExt (env env1 : Env) : Prop :=
  ∃ t, env1.errors = env.errors ++ t

/-- Restoration of the scoped parts of the environment: the cycle set
and the current scope are as they were. -/
def StatePres (env env1 : Env) : Prop :=
  env1.active_patterns = env.active_patterns ∧ env1.current = env.current


theorem errExt_refl (env : Env) : ErrExt env env :=
  ⟨[], by simp⟩

theorem errExt_trans {a b c : Env} (h1 : ErrExt a b) (h2 : ErrExt b c) :
    ErrExt a c := by
  obtain ⟨t1, e1⟩ := h1
  obtain ⟨t2, e2⟩ := h2
  exact ⟨t1 ++ t2, by simp [e2, e1]⟩

theorem statePres_refl (env : Env) : StatePres env env :=
  ⟨rfl, rfl⟩

theorem statePres_trans {a b c : Env} (h1 : StatePres a b) (h2 : StatePres b c) :
    StatePres a c :=
  ⟨h2.1.trans h1.1, h2.2.trans h1.2⟩

theorem evalSeq_errExt {α β : Type} (step : α → Env → Except Fatal β × Env)
    (h : ∀ a env, ErrExt env (step a env).2) :
    ∀ as env, ErrExt env (evalSeq step as env).2 := by
  intro as
  induction as with
  | nil => intro env; exact errExt_refl env
  | cons a rest ih =>
    intro env
    rcases hs : step a env with ⟨r, env1⟩
    have h1 : ErrExt env env1 := by have := h a env; rwa [hs] at this
    cases r with
    | error f => simpa [evalSeq, hs] using h1
    | ok b =>
      rcases hr : evalSeq step rest env1 with ⟨r2, env2⟩
      have h2 : ErrExt env1 env2 := by have := ih env1; rwa [hr] at this
      cases r2 with
      | error f => simpa [evalSeq, hs, hr] using errExt_trans h1 h2
      | ok bs => simpa [evalSeq, hs, hr] using errExt_trans h1 h2

theorem evalSeq_ok_pres {α β : Type} (step : α → Env → Except Fatal β × Env)
    (h : ∀ a env b env1, step a env = (.ok b, env1) → StatePres env env1) :
    ∀ as env bs env1, evalSeq step as env = (.ok bs, env1) → StatePres env env1 := by
  intro as
  induction as with
  | nil =>
    intro env bs env1 heq
    simp only [evalSeq] at heq
    cases heq
    exact statePres_refl env
  | cons a rest ih =>
    intro env bs env1 heq
    rcases hs : step a env with ⟨r, enva⟩
    cases r with
    | error f => simp [evalSeq, hs] at heq
    | ok b =>
      rcases hr : evalSeq step rest enva with ⟨r2, envb⟩
      cases r2 with
      | error f => simp [evalSeq, hs, hr] at heq
      | ok bs2 =>
        simp only [evalSeq, hs, hr] at heq
        have h2 : envb = env1 := by simpa using congrArg Prod.snd heq
        exact h2 ▸ (statePres_trans (h a env b enva hs) (ih enva bs2 envb hr))

theorem elemStep_errExt (ev : Expr → Env → Except Fatal FluentValue × Env)
    (ctx : Bundle) (h : ∀ e env, ErrExt env (ev e env).2) :
    ∀ e env, ErrExt env (elemStep ev ctx e env).2 := by
  intro e env
  rcases hs : ev e env with ⟨r, env1⟩
  have h1 : ErrExt env env1 := by have := h e env; rwa [hs] at this
  cases r with
  | error f => simpa [elemStep, hs] using h1
  | ok v =>
    cases hr : resolveVal ctx v with
    | error f => simpa [elemStep, hs, hr] using h1
    | ok s => simpa [elemStep, hs, hr] using h1

theorem elemStep_ok_pres (ev : Expr → Env → Except Fatal FluentValue × Env)
    (ctx : Bundle)
    (h : ∀ e env v env1, ev e env = (.ok v, env1) → StatePres env env1) :
    ∀ e env s env1, elemStep ev ctx e env = (.ok s, env1) → StatePres env env1 := by
  intro e env s env1 heq
  rcases hs : ev e env with ⟨r, enva⟩
  cases r with
  | error f => simp [elemStep, hs] at heq
  | ok v =>
    cases hr : resolveVal ctx v with
    | error f => simp [elemStep, hs, hr] at heq
    | ok s2 =>
      simp only [elemStep, hs, hr] at heq
      have h2 : enva = env1 := by simpa using congrArg Prod.snd heq
      exact h2 ▸ (h e env v enva hs)

theorem evalElemsWith_errExt (ev : Expr → Env → Except Fatal FluentValue × Env)
    (ctx : Bundle) (h : ∀ e env, ErrExt env (ev e env).2) :
    ∀ es env, ErrExt env (evalElemsWith ev ctx es env).2 := by
  intro es env
  have hseq := evalSeq_errExt (elemStep ev ctx) (elemStep_errExt ev ctx h) es env
  rcases hs : evalSeq (elemStep ev ctx) es env with ⟨r, env1⟩
  rw [hs] at hseq
  cases r with
  | error f => simpa [evalElemsWith, hs] using hseq
  | ok parts => simpa [evalElemsWith, hs] using hseq

theorem evalElemsWith_ok_pres (ev : Expr → Env → Except Fatal FluentValue × Env)
    (ctx : Bundle)
    (h : ∀ e env v env1, ev e env = (.ok v, env1) → StatePres env env1) :
    ∀ es env s env1, evalElemsWith ev ctx es env = (.ok s, env1) → StatePres env env1 := by
  intro es env s env1 heq
  rcases hs : evalSeq (elemStep ev ctx) es env with ⟨r, enva⟩
  cases r with
  | error f => simp [evalElemsWith, hs] at heq
  | ok parts =>
    simp only [evalElemsWith, hs] at heq
    have h2 : enva = env1 := by simpa using congrArg Prod.snd heq
    exact h2 ▸
      (evalSeq_ok_pres (elemStep ev ctx) (elemStep_ok_pres ev ctx h) es env parts enva hs)

theorem evalPatternWith_errExt
    (evElems : List Expr → Env → Except Fatal String × Env)
    (h : ∀ es env, ErrExt env (evElems es env).2) :
    ∀ p env, ErrExt env (evalPatternWith evElems p env).2 := by
  intro p env
  by_cases hc : p.id ∈ env.active_patterns
  · exact ⟨[.cyclic], by simp [evalPatternWith, hc]⟩
  · by_cases hov : (p.elements.length : Int) >
        (Pattern.MAX_PARTS : Int) - (env.part_count : Int)
    · exact ⟨[], by simp [evalPatternWith, hc, hov]⟩
    · rcases hs : evElems p.elements
        { env with active_patterns := p.id :: env.active_patterns } with ⟨r, env2⟩
      have h1 : ErrExt { env with active_patterns := p.id :: env.active_patterns } env2 := by
        have := h p.elements { env with active_patterns := p.id :: env.active_patterns }
        rwa [hs] at this
      obtain ⟨t, ht⟩ := h1
      cases r with
      | error f => exact ⟨t, by simpa [evalPatternWith, hc, hov, hs] using ht⟩
      | ok s => exact ⟨t, by simpa [evalPatternWith, hc, hov, hs] using ht⟩

theorem evalPatternWith_ok_pres
    (evElems : List Expr → Env → Except Fatal String × Env)
    (h : ∀ es env s env1, evElems es env = (.ok s, env1) → StatePres env env1) :
    ∀ p env v env1, evalPatternWith evElems p env = (.ok v, env1) →
      StatePres env env1 := by
  intro p env v env1 heq
  by_cases hc : p.id ∈ env.active_patterns
  · simp only [evalPatternWith, hc, if_true] at heq
    have h2 : ({ env with errors := env.errors ++ [.cyclic] } : Env) = env1 := by
      simpa using congrArg Prod.snd heq
    exact h2 ▸ ⟨rfl, rfl⟩
  · by_cases hov : (p.elements.length : Int) >
        (Pattern.MAX_PARTS : Int) - (env.part_count : Int)
    · simp [evalPatternWith, hc, hov] at heq
    · rcases hs : evElems p.elements
        { env with active_patterns := p.id :: env.active_patterns } with ⟨r, env2⟩
      cases r with
      | error f => simp [evalPatternWith, hc, hov, hs] at heq
      | ok s =>
        simp only [evalPatternWith, hc, hov, hs] at heq
        have h2 : ({ env2 with
            part_count := env2.part_count + p.elements.length,
            active_patterns := env2.active_patterns.erase p.id } : Env) = env1 := by
          simpa using congrArg Prod.snd heq
        have hp := h p.elements _ s env2 hs
        refine h2 ▸ ⟨?_, ?_⟩
        · have : env2.active_patterns = p.id :: env.active_patterns := by
            simpa using hp.1
          simp [this, List.erase_cons_head]
        · simpa using hp.2

theorem evalEntryRefWith_errExt
    (evPat : Pattern → Env → Except Fatal FluentValue × Env)
    (h : ∀ p env, ErrExt env (evPat p env).2) :
    ∀ ctx isTerm id attr env,
      ErrExt env (evalEntryRefWith evPat ctx isTerm id attr env).2 := by
  intro ctx isTerm id attr env
  cases hl : alookup (if isTerm then ctx.terms else ctx.messages) id with
  | none =>
    exact ⟨[.unknownRef (reference_to_id isTerm id attr)],
      by simp [evalEntryRefWith, hl]⟩
  | some entry =>
    cases attr with
    | some a =>
      cases ha : alookup entry.attributes a with
      | none =>
        exact ⟨[.unknownRef (reference_to_id isTerm id (some a))],
          by simp [evalEntryRefWith, hl, ha]⟩
      | some pat => simpa [evalEntryRefWith, hl, ha] using h pat env
    | none =>
      cases hv : entry.value with
      | none => exact ⟨[], by simp [evalEntryRefWith, hl, hv]⟩
      | some pat => simpa [evalEntryRefWith, hl, hv] using h pat env

theorem evalEntryRefWith_ok_pres
    (evPat : Pattern → Env → Except Fatal FluentValue × Env)
    (h : ∀ p env v env1, evPat p env = (.ok v, env1) → StatePres env env1) :
    ∀ ctx isTerm id attr env v env1,
      evalEntryRefWith evPat ctx isTerm id attr env = (.ok v, env1) →
      StatePres env env1 := by
  intro ctx isTerm id attr env v env1 heq
  cases hl : alookup (if isTerm then ctx.terms else ctx.messages) id with
  | none =>
    simp only [evalEntryRefWith, hl] at heq
    have h2 : ({ env with errors :=
        env.errors ++ [.unknownRef (reference_to_id isTerm id attr)] } : Env) = env1 := by
      simpa using congrArg Prod.snd heq
    exact h2 ▸ ⟨rfl, rfl⟩
  | some entry =>
    cases attr with
    | some a =>
      cases ha : alookup entry.attributes a with
      | none =>
        simp only [evalEntryRefWith, hl, ha] at heq
        have h2 : ({ env with errors :=
            env.errors ++ [.unknownRef (reference_to_id isTerm id (some a))] } : Env) = env1 := by
          simpa using congrArg Prod.snd heq
        exact h2 ▸ ⟨rfl, rfl⟩
      | some pat =>
        simp only [evalEntryRefWith, hl, ha] at heq
        exact h pat env v env1 heq
    | none =>
      cases hv : entry.value with
      | none => simp [evalEntryRefWith, hl, hv] at heq
      | some pat =>
        simp only [evalEntryRefWith, hl, hv] at heq
        exact h pat env v env1 heq

theorem namedArgStep_errExt (ev : Expr → Env → Except Fatal FluentValue × Env)
    (h : ∀ e env, ErrExt env (ev e env).2) :
    ∀ na env, ErrExt env (namedArgStep ev na env).2 := by
  intro na env
  cases na with
  | mk n value =>
    rcases hs : ev value env with ⟨r, env1⟩
    have h1 : ErrExt env env1 := by have := h value env; rwa [hs] at this
    cases r with
    | error f => simpa [namedArgStep, hs] using h1
    | ok v => simpa [namedArgStep, hs] using h1

theorem namedArgStep_ok_pres (ev : Expr → Env → Except Fatal FluentValue × Env)
    (h : ∀ e env v env1, ev e env = (.ok v, env1) → StatePres env env1) :
    ∀ na env b env1, namedArgStep ev na env = (.ok b, env1) → StatePres env env1 := by
  intro na env b env1 heq
  cases na with
  | mk n value =>
    rcases hs : ev value env with ⟨r, enva⟩
    cases r with
    | error f => simp [namedArgStep, hs] at heq
    | ok v =>
      simp only [namedArgStep, hs] at heq
      have h2 : enva = env1 := by simpa using congrArg Prod.snd heq
      exact h2 ▸ h value env v enva hs

theorem evalNamedValsWith_errExt (ev : Expr → Env → Except Fatal FluentValue × Env)
    (h : ∀ e env, ErrExt env (ev e env).2) :
    ∀ nas env, ErrExt env (evalNamedValsWith ev nas env).2 := by
  intro nas env
  have hseq := evalSeq_errExt (namedArgStep ev) (namedArgStep_errExt ev h) nas env
  rcases hs : evalSeq (namedArgStep ev) nas env with ⟨r, env1⟩
  rw [hs] at hseq
  cases r with
  | error f => simpa [evalNamedValsWith, hs] using hseq
  | ok pairs => simpa [evalNamedValsWith, hs] using hseq

theorem evalNamedValsWith_ok_pres (ev : Expr → Env → Except Fatal FluentValue × Env)
    (h : ∀ e env v env1, ev e env = (.ok v, env1) → StatePres env env1) :
    ∀ nas env kw env1, evalNamedValsWith ev nas env = (.ok kw, env1) →
      StatePres env env1 := by
  intro nas env kw env1 heq
  rcases hs : evalSeq (namedArgStep ev) nas env with ⟨r, enva⟩
  cases r with
  | error f => simp [evalNamedValsWith, hs] at heq
  | ok pairs =>
    simp only [evalNamedValsWith, hs] at heq
    have h2 : enva = env1 := by simpa using congrArg Prod.snd heq
    exact h2 ▸ evalSeq_ok_pres (namedArgStep ev) (namedArgStep_ok_pres ev h) nas env pairs enva hs

theorem scanVariants_errExt (ev : Expr → Env → Except Fatal FluentValue × Env)
    (ctx : Bundle) (key : FluentValue)
    (h : ∀ e env, ErrExt env (ev e env).2) :
    ∀ vs default env, ErrExt env (scanVariants ev ctx key vs default env).2 := by
  intro vs
  induction vs with
  | nil => intro default env; exact errExt_refl env
  | cons v rest ih =>
    intro default env
    rcases hs : ev v.key env with ⟨r, env1⟩
    have h1 : ErrExt env env1 := by have := h v.key env; rwa [hs] at this
    cases r with
    | error f => simpa [scanVariants, hs] using h1
    | ok kv =>
      cases hm : matchVal ctx key kv with
      | true => simpa [scanVariants, hs, hm] using h1
      | false =>
        have h2 := ih (if v.isDefault then some v else default) env1
        simpa [scanVariants, hs, hm] using errExt_trans h1 h2

theorem scanVariants_ok_pres (ev : Expr → Env → Except Fatal FluentValue × Env)
    (ctx : Bundle) (key : FluentValue)
    (h : ∀ e env v env1, ev e env = (.ok v, env1) → StatePres env env1) :
    ∀ vs default env found env1,
      scanVariants ev ctx key vs default env = (.ok found, env1) →
      StatePres env env1 := by
  intro vs
  induction vs with
  | nil =>
    intro default env found env1 heq
    simp only [scanVariants] at heq
    have h2 : env = env1 := by simpa using congrArg Prod.snd heq
    exact h2 ▸ statePres_refl env
  | cons v rest ih =>
    intro default env found env1 heq
    rcases hs : ev v.key env with ⟨r, enva⟩
    cases r with
    | error f => simp [scanVariants, hs] at heq
    | ok kv =>
      cases hm : matchVal ctx key kv with
      | true =>
        simp only [scanVariants, hs, hm] at heq
        have h2 : enva = env1 := by simpa using congrArg Prod.snd heq
        exact h2 ▸ h v.key env kv enva hs
      | false =>
        simp only [scanVariants, hs, hm] at heq
        exact statePres_trans (h v.key env kv enva hs)
          (ih (if v.isDefault then some v else default) enva found env1 heq)

theorem termScopeWith_errExt
    (evPat : Pattern → Env → Except Fatal FluentValue × Env)
    (h : ∀ p env, ErrExt env (evPat p env).2) :
    ∀ ctx id attr kwargs env,
      ErrExt env (termScopeWith evPat ctx id attr kwargs env).2 := by
  intro ctx id attr kwargs env
  rcases hs : evalEntryRefWith evPat ctx true id attr
      { env with current := ⟨kwargs, false⟩ } with ⟨r, env3⟩
  have h1 : ErrExt { env with current := (⟨kwargs, false⟩ : CurrentEnvironment) } env3 := by
    have := evalEntryRefWith_errExt evPat h ctx true id attr
      { env with current := ⟨kwargs, false⟩ }
    rwa [hs] at this
  obtain ⟨t, ht⟩ := h1
  cases r with
  | ok v => exact ⟨t, by simpa [termScopeWith, hs] using ht⟩
  | error f => exact ⟨t, by simpa [termScopeWith, hs] using ht⟩

theorem termScopeWith_ok_pres
    (evPat : Pattern → Env → Except Fatal FluentValue × Env)
    (h : ∀ p env v env1, evPat p env = (.ok v, env1) → StatePres env env1) :
    ∀ ctx id attr kwargs env v env1,
      termScopeWith evPat ctx id attr kwargs env = (.ok v, env1) →
      StatePres env env1 := by
  intro ctx id attr kwargs env v env1 heq
  rcases hs : evalEntryRefWith evPat ctx true id attr
      { env with current := ⟨kwargs, false⟩ } with ⟨r, env3⟩
  cases r with
  | error f => simp [termScopeWith, hs] at heq
  | ok v2 =>
    simp only [termScopeWith, hs] at heq
    have h2 : ({ env3 with current := env.current } : Env) = env1 := by
      simpa using congrArg Prod.snd heq
    have hp := evalEntryRefWith_ok_pres evPat h ctx true id attr _ v2 env3 hs
    refine h2 ▸ ⟨?_, rfl⟩
    simpa using hp.1

theorem evalStep_errExt (ev : Bundle → Expr → Env → Except Fatal FluentValue × Env)
    (hE : ∀ ctx e env, ErrExt env (ev ctx e env).2) :
    ∀ ctx e env, ErrExt env (evalStep ev ctx e env).2 := by
  intro ctx e env
  have hev : ∀ e env, ErrExt env (ev ctx e env).2 := fun e env => hE ctx e env
  have hpat : ∀ p env, ErrExt env (evalPatternWith (evalElemsWith (ev ctx) ctx) p env).2 :=
    evalPatternWith_errExt _ (evalElemsWith_errExt (ev ctx) ctx hev)
  cases e with
  | text s => exact errExt_refl env
  | stringLit s => exact errExt_refl env
  | numberLit n => exact errExt_refl env
  | identifier name => exact errExt_refl env
  | varRef name =>
    cases hl : alookup env.current.args name with
    | none =>
      cases hf : env.current.error_for_missing_arg with
      | true =>
        exact ⟨[.refErr ("Unknown external: " ++ name)], by simp [evalStep, hl, hf]⟩
      | false => exact ⟨[], by simp [evalStep, hl, hf]⟩
    | some av =>
      cases av with
      | fv v => exact ⟨[], by simp [evalStep, hl]⟩
      | unsupported => exact ⟨[.typeErr name], by simp [evalStep, hl]⟩
  | placeable inner =>
    rcases hs : ev ctx inner env with ⟨r, env1⟩
    have h1 : ErrExt env env1 := by have := hev inner env; rwa [hs] at this
    obtain ⟨t, ht⟩ := h1
    cases r with
    | error f => exact ⟨t, by simpa [evalStep, hs] using ht⟩
    | ok v =>
      cases hr : resolveVal ctx v with
      | error f => exact ⟨t, by simpa [evalStep, hs, hr] using ht⟩
      | ok s => exact ⟨t, by simpa [evalStep, hs, hr] using ht⟩
  | neverIsolating inner =>
    rcases hs : ev ctx inner env with ⟨r, env1⟩
    have h1 : ErrExt env env1 := by have := hev inner env; rwa [hs] at this
    obtain ⟨t, ht⟩ := h1
    cases r with
    | error f => exact ⟨t, by simpa [evalStep, hs] using ht⟩
    | ok v =>
      cases hr : resolveVal ctx v with
      | error f => exact ⟨t, by simpa [evalStep, hs, hr] using ht⟩
      | ok s => exact ⟨t, by simpa [evalStep, hs, hr] using ht⟩
  | msgRef id attr =>
    exact evalEntryRefWith_errExt _ hpat ctx false id attr env
  | termRef id attr arguments =>
    have hts : ∀ kwargs env, ErrExt env
        (termScopeWith (evalPatternWith (evalElemsWith (ev ctx) ctx)) ctx id attr kwargs env).2 :=
      fun kwargs env => termScopeWith_errExt _ hpat ctx id attr kwargs env
    cases arguments with
    | none => exact hts [] env
    | some ca =>
      cases ca with
      | mk pos named =>
        cases hp : pos.isEmpty with
        | true =>
          rcases hn : evalNamedValsWith (ev ctx) named env with ⟨rn, env1⟩
          have h1 : ErrExt env env1 := by
            have := evalNamedValsWith_errExt (ev ctx) hev named env
            rwa [hn] at this
          cases rn with
          | error f =>
            obtain ⟨t, ht⟩ := h1
            exact ⟨t, by simpa [evalStep, hp, hn] using ht⟩
          | ok kwargs =>
            have h2 := hts (kwargs.map (fun p => (p.1, ArgVal.fv p.2))) env1
            obtain ⟨t, ht⟩ := errExt_trans h1 h2
            exact ⟨t, by simpa [evalStep, hp, hn] using ht⟩
        | false =>
          have h0 : ErrExt env
              { env with errors := env.errors ++ [.formatErr (reference_to_id true id attr)] } :=
            ⟨[.formatErr (reference_to_id true id attr)], rfl⟩
          rcases hn : evalNamedValsWith (ev ctx) named
              { env with errors := env.errors ++ [.formatErr (reference_to_id true id attr)] }
            with ⟨rn, env1⟩
          have h1 : ErrExt
              { env with errors := env.errors ++ [.formatErr (reference_to_id true id attr)] }
              env1 := by
            have := evalNamedValsWith_errExt (ev ctx) hev named
              { env with errors := env.errors ++ [.formatErr (reference_to_id true id attr)] }
            rwa [hn] at this
          cases rn with
          | error f =>
            obtain ⟨t, ht⟩ := errExt_trans h0 h1
            exact ⟨t, by simpa [evalStep, hp, hn] using ht⟩
          | ok kwargs =>
            have h2 := hts (kwargs.map (fun p => (p.1, ArgVal.fv p.2))) env1
            obtain ⟨t, ht⟩ := errExt_trans (errExt_trans h0 h1) h2
            exact ⟨t, by simpa [evalStep, hp, hn] using ht⟩
  | funcRef id ca =>
    cases ca with
    | mk pos named =>
      rcases hs : evalSeq (ev ctx) pos env with ⟨r1, env1⟩
      have h1 : ErrExt env env1 := by
        have := evalSeq_errExt (ev ctx) hev pos env
        rwa [hs] at this
      cases r1 with
      | error f =>
        obtain ⟨t, ht⟩ := h1
        exact ⟨t, by simpa [evalStep, hs] using ht⟩
      | ok args =>
        rcases hn : evalNamedValsWith (ev ctx) named env1 with ⟨rn, env2⟩
        have h2 : ErrExt env1 env2 := by
          have := evalNamedValsWith_errExt (ev ctx) hev named env1
          rwa [hn] at this
        cases rn with
        | error f =>
          obtain ⟨t, ht⟩ := errExt_trans h1 h2
          exact ⟨t, by simpa [evalStep, hs, hn] using ht⟩
        | ok kwargs =>
          cases hl : alookup ctx.functions id with
          | none =>
            obtain ⟨t, ht⟩ := errExt_trans h1 h2
            exact ⟨t ++ [.refErr ("Unknown function: " ++ id)],
              by simp [evalStep, hs, hn, hl, ht]⟩
          | some f =>
            cases hf : f args kwargs with
            | ok v =>
              obtain ⟨t, ht⟩ := errExt_trans h1 h2
              exact ⟨t, by simpa [evalStep, hs, hn, hl, hf] using ht⟩
            | error emsg =>
              obtain ⟨t, ht⟩ := errExt_trans h1 h2
              exact ⟨t ++ [.funcRaise emsg], by simp [evalStep, hs, hn, hl, hf, ht]⟩
  | select selector variants =>
    rcases hs : ev ctx selector env with ⟨r1, env1⟩
    have h1 : ErrExt env env1 := by have := hev selector env; rwa [hs] at this
    cases r1 with
    | error f =>
      obtain ⟨t, ht⟩ := h1
      exact ⟨t, by simpa [evalStep, hs] using ht⟩
    | ok key =>
      rcases hv : scanVariants (ev ctx) ctx key variants none env1 with ⟨r2, env2⟩
      have h2 : ErrExt env1 env2 := by
        have := scanVariants_errExt (ev ctx) ctx key hev variants none env1
        rwa [hv] at this
      cases r2 with
      | error f =>
        obtain ⟨t, ht⟩ := errExt_trans h1 h2
        exact ⟨t, by simpa [evalStep, hs, hv] using ht⟩
      | ok found =>
        cases found with
        | none =>
          obtain ⟨t, ht⟩ := errExt_trans h1 h2
          exact ⟨t, by simpa [evalStep, hs, hv] using ht⟩
        | some v =>
          have h3 := hpat v.value env2
          obtain ⟨t, ht⟩ := errExt_trans (errExt_trans h1 h2) h3
          exact ⟨t, by simpa [evalStep, hs, hv] using ht⟩

theorem evalStep_ok_pres (ev : Bundle → Expr → Env → Except Fatal FluentValue × Env)
    (hE : ∀ ctx e env v env1, ev ctx e env = (.ok v, env1) → StatePres env env1) :
    ∀ ctx e env v env1, evalStep ev ctx e env = (.ok v, env1) → StatePres env env1 := by
  intro ctx e env v env1 heq
  have hev : ∀ e env v env1, ev ctx e env = (.ok v, env1) → StatePres env env1 :=
    fun e env v env1 => hE ctx e env v env1
  have hpat : ∀ p env v env1,
      evalPatternWith (evalElemsWith (ev ctx) ctx) p env = (.ok v, env1) →
      StatePres env env1 :=
    evalPatternWith_ok_pres _ (evalElemsWith_ok_pres (ev ctx) ctx hev)
  cases e with
  | text s =>
    have h2 : env = env1 := by simpa [evalStep] using congrArg Prod.snd heq
    exact h2 ▸ statePres_refl env
  | stringLit s =>
    have h2 : env = env1 := by simpa [evalStep] using congrArg Prod.snd heq
    exact h2 ▸ statePres_refl env
  | numberLit n =>
    have h2 : env = env1 := by simpa [evalStep] using congrArg Prod.snd heq
    exact h2 ▸ statePres_refl env
  | identifier name =>
    have h2 : env = env1 := by simpa [evalStep] using congrArg Prod.snd heq
    exact h2 ▸ statePres_refl env
  | varRef name =>
    cases hl : alookup env.current.args name with
    | none =>
      cases hf : env.current.error_for_missing_arg with
      | true =>
        have h2 : ({ env with errors :=
            env.errors ++ [.refErr ("Unknown external: " ++ name)] } : Env) = env1 := by
          simpa [evalStep, hl, hf] using congrArg Prod.snd heq
        exact h2 ▸ ⟨rfl, rfl⟩
      | false =>
        have h2 : env = env1 := by
          simpa [evalStep, hl, hf] using congrArg Prod.snd heq
        exact h2 ▸ statePres_refl env
    | some av =>
      cases av with
      | fv v2 =>
        have h2 : env = env1 := by simpa [evalStep, hl] using congrArg Prod.snd heq
        exact h2 ▸ statePres_refl env
      | unsupported =>
        have h2 : ({ env with errors := env.errors ++ [.typeErr name] } : Env) = env1 := by
          simpa [evalStep, hl] using congrArg Prod.snd heq
        exact h2 ▸ ⟨rfl, rfl⟩
  | placeable inner =>
    rcases hs : ev ctx inner env with ⟨r, enva⟩
    cases r with
    | error f => simp [evalStep, hs] at heq
    | ok v2 =>
      cases hr : resolveVal ctx v2 with
      | error f => simp [evalStep, hs, hr] at heq
      | ok s =>
        have h2 : enva = env1 := by
          simpa [evalStep, hs, hr] using congrArg Prod.snd heq
        exact h2 ▸ hev inner env v2 enva hs
  | neverIsolating inner =>
    rcases hs : ev ctx inner env with ⟨r, enva⟩
    cases r with
    | error f => simp [evalStep, hs] at heq
    | ok v2 =>
      cases hr : resolveVal ctx v2 with
      | error f => simp [evalStep, hs, hr] at heq
      | ok s =>
        have h2 : enva = env1 := by
          simpa [evalStep, hs, hr] using congrArg Prod.snd heq
        exact h2 ▸ hev inner env v2 enva hs
  | msgRef id attr =>
    exact evalEntryRefWith_ok_pres _ hpat ctx false id attr env v env1 heq
  | termRef id attr arguments =>
    have hts : ∀ kwargs env v env1,
        termScopeWith (evalPatternWith (evalElemsWith (ev ctx) ctx)) ctx id attr kwargs env
          = (.ok v, env1) → StatePres env env1 :=
      fun kwargs env v env1 => termScopeWith_ok_pres _ hpat ctx id attr kwargs env v env1
    cases arguments with
    | none => exact hts [] env v env1 heq
    | some ca =>
      cases ca with
      | mk pos named =>
        cases hp : pos.isEmpty with
        | true =>
          rcases hn : evalNamedValsWith (ev ctx) named env with ⟨rn, enva⟩
          cases rn with
          | error f => simp [evalStep, hp, hn] at heq
          | ok kwargs =>
            simp only [evalStep, hp, if_true, hn] at heq
            have h1 := evalNamedValsWith_ok_pres (ev ctx) hev named env kwargs enva hn
            exact statePres_trans h1 (hts _ enva v env1 heq)
        | false =>
          rcases hn : evalNamedValsWith (ev ctx) named
              { env with errors := env.errors ++ [.formatErr (reference_to_id true id attr)] }
            with ⟨rn, enva⟩
          cases rn with
          | error f => simp [evalStep, hp, hn] at heq
          | ok kwargs =>
            simp only [evalStep, hp, Bool.false_eq_true, if_false, hn] at heq
            have h1 := evalNamedValsWith_ok_pres (ev ctx) hev named _ kwargs enva hn
            exact statePres_trans (statePres_refl env) (statePres_trans h1 (hts _ enva v env1 heq))
  | funcRef id ca =>
    cases ca with
    | mk pos named =>
      rcases hs : evalSeq (ev ctx) pos env with ⟨r1, enva⟩
      cases r1 with
      | error f => simp [evalStep, hs] at heq
      | ok args =>
        have h1 := evalSeq_ok_pres (ev ctx) hev pos env args enva hs
        rcases hn : evalNamedValsWith (ev ctx) named enva with ⟨rn, envb⟩
        cases rn with
        | error f => simp [evalStep, hs, hn] at heq
        | ok kwargs =>
          have h2 := evalNamedValsWith_ok_pres (ev ctx) hev named enva kwargs envb hn
          cases hl : alookup ctx.functions id with
          | none =>
            have h3 : ({ envb with errors :=
                envb.errors ++ [.refErr ("Unknown function: " ++ id)] } : Env) = env1 := by
              simpa [evalStep, hs, hn, hl] using congrArg Prod.snd heq
            exact h3 ▸ statePres_trans (statePres_trans h1 h2) ⟨rfl, rfl⟩
          | some f =>
            cases hf : f args kwargs with
            | ok v2 =>
              have h3 : envb = env1 := by
                simpa [evalStep, hs, hn, hl, hf] using congrArg Prod.snd heq
              exact h3 ▸ statePres_trans h1 h2
            | error emsg =>
              have h3 : ({ envb with errors :=
                  envb.errors ++ [.funcRaise emsg] } : Env) = env1 := by
                simpa [evalStep, hs, hn, hl, hf] using congrArg Prod.snd heq
              exact h3 ▸ statePres_trans (statePres_trans h1 h2) ⟨rfl, rfl⟩
  | select selector variants =>
    rcases hs : ev ctx selector env with ⟨r1, enva⟩
    cases r1 with
    | error f => simp [evalStep, hs] at heq
    | ok key =>
      have h1 := hev selector env key enva hs
      rcases hv : scanVariants (ev ctx) ctx key variants none enva with ⟨r2, envb⟩
      cases r2 with
      | error f => simp [evalStep, hs, hv] at heq
      | ok found =>
        cases found with
        | none => simp [evalStep, hs, hv] at heq
        | some vr =>
          simp only [evalStep, hs, hv] at heq
          have h2 := scanVariants_ok_pres (ev ctx) ctx key hev variants none enva
            (some vr) envb hv
          exact statePres_trans (statePres_trans h1 h2) (hpat vr.value envb v env1 heq)

theorem evalExpr_errExt (fuel : Nat) :
    ∀ (ctx : Bundle) (e : Expr) (env : Env),
      ErrExt env (evalExpr fuel ctx e env).2 := by
  induction fuel with
  | zero => intro ctx e env; exact errExt_refl env
  | succ fuel ih => intro ctx e env; exact evalStep_errExt (evalExpr fuel) ih ctx e env

theorem evalExpr_ok_pres (fuel : Nat) :
    ∀ (ctx : Bundle) (e : Expr) (env : Env) (v : FluentValue) (env1 : Env),
      evalExpr fuel ctx e env = (.ok v, env1) → StatePres env env1 := by
  induction fuel with
  | zero => intro ctx e env v env1 heq; simp [evalExpr] at heq
  | succ fuel ih =>
    intro ctx e env v env1 heq
    exact evalStep_ok_pres (evalExpr fuel) ih ctx e env v env1 heq

theorem evalElems_errExt (fuel : Nat) (ctx : Bundle) :
    ∀ es env, ErrExt env (evalElems fuel ctx es env).2 :=
  evalElemsWith_errExt (evalExpr fuel ctx) ctx
    (fun e env => evalExpr_errExt fuel ctx e env)

theorem evalElems_ok_pres (fuel : Nat) (ctx : Bundle) :
    ∀ es env s env1, evalElems fuel ctx es env = (.ok s, env1) → StatePres env env1 :=
  evalElemsWith_ok_pres (evalExpr fuel ctx) ctx
    (fun e env v env1 => evalExpr_ok_pres fuel ctx e env v env1)

theorem evalPattern_errExt (fuel : Nat) (ctx : Bundle) :
    ∀ p env, ErrExt env (evalPattern fuel ctx p env).2 :=
  evalPatternWith_errExt (evalElems fuel ctx) (evalElems_errExt fuel ctx)

theorem evalPattern_ok_pres (fuel : Nat) (ctx : Bundle) :
    ∀ p env v env1, evalPattern fuel ctx p env = (.ok v, env1) → StatePres env env1 :=
  evalPatternWith_ok_pres (evalElems fuel ctx) (evalElems_ok_pres fuel ctx)

theorem evalPattern_overflow (fuel : Nat) (ctx : Bundle) (p : Pattern) (env : Env)
    (hnc : p.id ∉ env.active_patterns)
    (hov : (p.elements.length : Int) > (Pattern.MAX_PARTS : Int) - (env.part_count : Int)) :
    evalPattern fuel ctx p env = (.error .tooManyParts, env) := by
  simp [evalPattern, evalPatternWith, hnc, hov, List.erase_cons_head]

theorem evalSeq_texts (fuel : Nat) (ctx : Bundle) :
    ∀ (es : List Expr) (env : Env),
      (∀ e ∈ es, ∃ s, e = Expr.text s ∧ s.length ≤ MAX_PART_LENGTH) → 0 < fuel →
      ∃ parts, evalSeq (elemStep (evalExpr fuel ctx) ctx) es env = (.ok parts, env) := by
  intro es
  induction es with
  | nil => intro env h hf; exact ⟨[], rfl⟩
  | cons e rest ih =>
    intro env h hf
    obtain ⟨s, he, hlen⟩ := h e (by simp)
    subst he
    obtain ⟨fuel0, hfe⟩ : ∃ f, fuel = f + 1 := ⟨fuel - 1, by omega⟩
    obtain ⟨parts, hparts⟩ := ih env (fun e hmem => h e (by simp [hmem])) hf
    have hnl : ¬ (s.length > MAX_PART_LENGTH) := by omega
    subst hfe
    have hhead : elemStep (evalExpr (fuel0 + 1) ctx) ctx (Expr.text s) env = (.ok s, env) := by
      simp [elemStep, evalExpr, evalStep, resolveVal, hnl]
    refine ⟨s :: parts, ?_⟩
    simp [evalSeq, hhead, hparts]

/-- The budget guard and the part-count charge of Pattern.__call__, used
by the claims about resource limits: overflowing patterns abort with the
fatal ValueError leaving the environment untouched, patterns of plain
short text elements succeed charging exactly their element count, and an
overflowing pattern aborts the whole top-level format_pattern call. -/
theorem evalPattern_budget (fuel : Nat) (ctx : Bundle) (p : Pattern) (env : Env)
    (hnc : p.id ∉ env.active_patterns) :
    ((p.elements.length : Int) > (Pattern.MAX_PARTS : Int) - (env.part_count : Int) →
      evalPattern fuel ctx p env = (.error .tooManyParts, env)) ∧
    ((∀ e ∈ p.elements, ∃ s, e = Expr.text s ∧ s.length ≤ MAX_PART_LENGTH) →
      ¬((p.elements.length : Int) > (Pattern.MAX_PARTS : Int) - (env.part_count : Int)) →
      0 < fuel →
      ∃ out, evalPattern fuel ctx p env =
        (.ok (.str out), { env with part_count := env.part_count + p.elements.length })) := by
  constructor
  · intro hov
    exact evalPattern_overflow fuel ctx p env hnc hov
  · intro htext hov hf
    obtain ⟨parts, hparts⟩ := evalSeq_texts fuel ctx p.elements
      { env with active_patterns := p.id :: env.active_patterns } htext hf
    refine ⟨concatParts parts, ?_⟩
    simp [evalPattern, evalPatternWith, hnc, hov, evalElems, evalElemsWith, hparts,
      List.erase_cons_head]

/-- A pattern element whose evaluated result is a string longer than
MAX_PART_LENGTH makes the element loop abort with the fatal
partTooLong error. -/
theorem evalElems_partTooLong (fuel : Nat) (ctx : Bundle) (e : Expr)
    (rest : List Expr) (env : Env) (s : String) (env1 : Env)
    (hev : evalExpr fuel ctx e env = (.ok (.str s), env1))
    (hlen : s.length > MAX_PART_LENGTH) :
    evalElems fuel ctx (e :: rest) env = (.error .partTooLong, env1) := by
  have h1 : resolveVal ctx (.str s) = .error .partTooLong := by simp [resolveVal, hlen]
  have hstep : elemStep (evalExpr fuel ctx) ctx e env = (.error .partTooLong, env1) := by
    simp [elemStep, hev, h1]
  simp [evalElems, evalElemsWith, evalSeq, hstep]

/-- The length of the example over-long string. -/
theorem longStr_length : longStr.length = 2501 := by
  show (List.replicate 2501 'a').length = 2501
  rw [List.length_replicate]

/-- The element count of the example over-long pattern. -/
theorem bigPattern_elements_length : bigPattern.elements.length = 1001 := by
  show (List.replicate 1001 (Expr.text "x")).length = 1001
  rw [List.length_replicate]

/-- A pattern that passes both guards but whose element loop aborts with
the length-cap fatal error propagates that abort, keeping the
environment the element loop returned (the pattern id has not been
removed from active_patterns on this path). -/
theorem evalPattern_partTooLong (fuel : Nat) (ctx : Bundle) (p : Pattern)
    (env env1 : Env)
    (hnc : p.id ∉ env.active_patterns)
    (hov : ¬ ((p.elements.length : Int) >
      (Pattern.MAX_PARTS : Int) - (env.part_count : Int)))
    (helems : evalElems fuel ctx p.elements
      { env with active_patterns := p.id :: env.active_patterns } =
      (.error .partTooLong, env1)) :
    evalPattern fuel ctx p env = (.error .partTooLong, env1) := by
  simp [evalPattern, evalPatternWith, hnc, hov, helems]

/-- C5: a pattern whose identity is already in active_patterns resolves
to the FluentNone placeholder with exactly one CyclicReference error
appended to the collected error list, without recursing, and with every
other part of the environment (part count, cycle set, current scope)
untouched, so sibling and later resolutions of the same pattern are
unaffected. -/
theorem C5_cyclic_reference (fuel : Nat) (ctx : Bundle) (p : Pattern) (env : Env)
    (h : p.id ∈ env.active_patterns) :
    evalPattern fuel ctx p env =
      (.ok (.fnone none), { env with errors := env.errors ++ [.cyclic] }) := by
  simp [evalPattern, evalPatternWith, h]

/-- Witness for C5 at a concrete cyclic environment. -/
theorem C5_cyclic_reference_witness :
    (3 : Nat) ∈ ({ freshEnv [] with active_patterns := [3] } : Env).active_patterns ∧
    evalPattern 1 exCtx (Pattern.mk 3 [Expr.text "x"])
        { freshEnv [] with active_patterns := [3] } =
      (.ok (.fnone none),
        { ({ freshEnv [] with active_patterns := [3] } : Env) with
          errors := ({ freshEnv [] with active_patterns := [3] } : Env).errors ++ [.cyclic] }) :=
  ⟨by decide,
    C5_cyclic_reference 1 exCtx (Pattern.mk 3 [Expr.text "x"])
      { freshEnv [] with active_patterns := [3] } (by decide)⟩

/-- C3: when the element count of a pattern exceeds MAX_PARTS minus the
running part count, evaluation aborts with the fatal tooManyParts error,
leaving the error list (and the whole environment) untouched, and an
overflowing pattern makes the top-level format_pattern call abort with
the same fatal result; otherwise, for a pattern of plain short text
elements, part_count grows by exactly the element count of the pattern,
charged once for the pattern. -/
theorem C3_part_budget (fuel : Nat) (ctx : Bundle) (p : Pattern) (env : Env)
    (hnc : p.id ∉ env.active_patterns) :
    ((p.elements.length : Int) > (Pattern.MAX_PARTS : Int) - (env.part_count : Int) →
      evalPattern fuel ctx p env = (.error .tooManyParts, env)) ∧
    ((∀ e ∈ p.elements, ∃ s, e = Expr.text s ∧ s.length ≤ MAX_PART_LENGTH) →
      ¬((p.elements.length : Int) > (Pattern.MAX_PARTS : Int) - (env.part_count : Int)) →
      0 < fuel →
      ∃ out, evalPattern fuel ctx p env =
        (.ok (.str out), { env with part_count := env.part_count + p.elements.length })) ∧
    (∀ args, (p.elements.length : Int) > (Pattern.MAX_PARTS : Int) →
      format_pattern fuel ctx p args = .error .tooManyParts) := by
  refine ⟨(evalPattern_budget fuel ctx p env hnc).1,
    (evalPattern_budget fuel ctx p env hnc).2, ?_⟩
  intro args hov
  have h1 : evalPattern fuel ctx p (freshEnv args) = (.error .tooManyParts, freshEnv args) := by
    apply evalPattern_overflow
    · simp [freshEnv]
    · simpa [freshEnv] using hov
  simp [format_pattern, h1]

/-- Witness for C3 at the overflowing and at a small concrete pattern. -/
theorem C3_part_budget_witness :
    evalPattern 1 exCtx bigPattern (freshEnv []) = (.error .tooManyParts, freshEnv []) ∧
    (∃ out, evalPattern 1 exCtx smallPattern (freshEnv []) =
      (.ok (.str out),
        { freshEnv [] with
          part_count := (freshEnv []).part_count + smallPattern.elements.length })) ∧
    format_pattern 1 exCtx bigPattern [] = .error .tooManyParts := by
  have hnc : bigPattern.id ∉ (freshEnv []).active_patterns := by
    simp [bigPattern, Pattern.id, freshEnv]
  refine ⟨?_, ?_, ?_⟩
  · exact (C3_part_budget 1 exCtx bigPattern (freshEnv []) hnc).1
      (by rw [bigPattern_elements_length]; norm_num [freshEnv, Pattern.MAX_PARTS])
  · exact (C3_part_budget 1 exCtx smallPattern (freshEnv []) (by decide)).2.1
      (by
        intro e he
        simp [smallPattern, Pattern.elements] at he
        exact ⟨"hi", he, by decide⟩)
      (by decide) (by decide)
  · exact (C3_part_budget 1 exCtx bigPattern (freshEnv []) hnc).2.2 []
      (by rw [bigPattern_elements_length]; norm_num [Pattern.MAX_PARTS])

/-- C6 (amended): the pattern identity is inserted before the elements
are evaluated and is removed again on every completed evaluation (cycle
hit or normal completion: active_patterns is restored exactly) and on
the pattern-own budget-overflow abort; it is not removed when a fatal
error propagates out of the element evaluation (see the
counterexample). -/
theorem C6_active_patterns_discipline (fuel : Nat) (ctx : Bundle) (p : Pattern)
    (env : Env) :
    (∀ v env1, evalPattern fuel ctx p env = (.ok v, env1) →
      env1.active_patterns = env.active_patterns) ∧
    (p.id ∉ env.active_patterns →
      (p.elements.length : Int) > (Pattern.MAX_PARTS : Int) - (env.part_count : Int) →
      evalPattern fuel ctx p env = (.error .tooManyParts, env)) := by
  constructor
  · intro v env1 h
    exact (evalPattern_ok_pres fuel ctx p env v env1 h).1
  · intro hnc hov
    exact evalPattern_overflow fuel ctx p env hnc hov

/-- Witness for the amended C6. -/
theorem C6_active_patterns_discipline_witness :
    ({ freshEnv [] with part_count := 1 } : Env).active_patterns =
      (freshEnv []).active_patterns ∧
    evalPattern 1 exCtx bigPattern (freshEnv []) = (.error .tooManyParts, freshEnv []) := by
  constructor
  · exact (C6_active_patterns_discipline 1 exCtx smallPattern (freshEnv [])).1
      (.str "hi") { freshEnv [] with part_count := 1 } (by decide)
  · exact (C6_active_patterns_discipline 1 exCtx bigPattern (freshEnv [])).2
      (by simp [bigPattern, Pattern.id, freshEnv])
      (by rw [bigPattern_elements_length]; norm_num [freshEnv, Pattern.MAX_PARTS])

/-- C6 counterexample: when the fatal length-cap error propagates out of
the element evaluation, Pattern.__call__ has no finally-clause, so the
pattern identity 5 is left inside active_patterns, contradicting the
claim that it is removed on every exit path. -/
theorem C6_counterexample :
    (evalPattern 1 exCtx (Pattern.mk 5 [Expr.text longStr]) (freshEnv [])).1 =
      .error .partTooLong ∧
    ((evalPattern 1 exCtx (Pattern.mk 5 [Expr.text longStr]) (freshEnv [])).2).active_patterns =
      [5] := by
  have hlen : longStr.length > MAX_PART_LENGTH := by
    rw [longStr_length]; norm_num [MAX_PART_LENGTH]
  have hev : evalExpr 1 exCtx (Expr.text longStr) (⟨0, [5], [], ⟨[], true⟩⟩ : Env) =
      (.ok (.str longStr), ⟨0, [5], [], ⟨[], true⟩⟩) := by
    simp [evalExpr, evalStep]
  have helems := evalElems_partTooLong 1 exCtx (Expr.text longStr) []
    ⟨0, [5], [], ⟨[], true⟩⟩ longStr ⟨0, [5], [], ⟨[], true⟩⟩ hev hlen
  have hpat : evalPattern 1 exCtx (Pattern.mk 5 [Expr.text longStr]) (freshEnv []) =
      (.error .partTooLong, (⟨0, [5], [], ⟨[], true⟩⟩ : Env)) :=
    evalPattern_partTooLong 1 exCtx (Pattern.mk 5 [Expr.text longStr]) (freshEnv [])
      ⟨0, [5], [], ⟨[], true⟩⟩
      (by simp [freshEnv, Pattern.id])
      (by norm_num [freshEnv, Pattern.elements, Pattern.MAX_PARTS])
      helems
  exact ⟨by simp [hpat], by simp [hpat]⟩

/-- C4: a string result longer than MAX_PART_LENGTH is rejected by the
resolve helper with the fatal partTooLong error, and any pattern element
(in particular any placeable) whose evaluated result is such a string
aborts the element loop with that fatal error instead of contributing
truncated output. -/
theorem C4_length_cap :
    (∀ (ctx : Bundle) (s : String), s.length > MAX_PART_LENGTH →
      resolveVal ctx (.str s) = .error .partTooLong) ∧
    (∀ (fuel : Nat) (ctx : Bundle) (e : Expr) (rest : List Expr) (env : Env)
      (s : String) (env1 : Env),
      evalExpr fuel ctx e env = (.ok (.str s), env1) →
      s.length > MAX_PART_LENGTH →
      evalElems fuel ctx (e :: rest) env = (.error .partTooLong, env1)) := by
  constructor
  · intro ctx s h
    simp [resolveVal, h]
  · intro fuel ctx e rest env s env1 hev hlen
    exact evalElems_partTooLong fuel ctx e rest env s env1 hev hlen

/-- Witness for C4 at a 2501-character string. -/
theorem C4_length_cap_witness :
    longStr.length > MAX_PART_LENGTH ∧
    resolveVal exCtx (.str longStr) = .error .partTooLong ∧
    evalElems 1 exCtx [Expr.text longStr] (freshEnv []) =
      (.error .partTooLong, freshEnv []) := by
  have hlen : longStr.length > MAX_PART_LENGTH := by
    rw [longStr_length]; norm_num [MAX_PART_LENGTH]
  refine ⟨hlen, ?_, ?_⟩
  · exact C4_length_cap.1 exCtx longStr hlen
  · exact C4_length_cap.2 1 exCtx (Expr.text longStr) [] (freshEnv []) longStr
      (freshEnv []) (by simp [evalExpr, evalStep]) hlen

/-- C9: a variable reference whose name is absent from the current
argument mapping appends an Unknown-external ReferenceError exactly when
the missing-argument flag of the current scope is set, and in either
case returns the FluentNone value carrying the name; a present value of
an unsupported kind appends a TypeError-kind error and returns the same
fallback; a present recognised value is returned as it is.  No case is
an exception. -/
theorem C9_variable_reference (fuel : Nat) (ctx : Bundle) (name : String) (env : Env) :
    (alookup env.current.args name = none →
      evalExpr (fuel + 1) ctx (.varRef name) env =
        (.ok (.fnone (some name)),
          { env with errors := env.errors ++
              (if env.current.error_for_missing_arg then
                [.refErr ("Unknown external: " ++ name)] else []) })) ∧
    (alookup env.current.args name = some .unsupported →
      evalExpr (fuel + 1) ctx (.varRef name) env =
        (.ok (.fnone (some name)),
          { env with errors := env.errors ++ [.typeErr name] })) ∧
    (∀ v, alookup env.current.args name = some (.fv v) →
      evalExpr (fuel + 1) ctx (.varRef name) env = (.ok v, env)) := by
  refine ⟨?_, ?_, ?_⟩
  · intro h
    cases hf : env.current.error_for_missing_arg
    · simp [evalExpr, evalStep, h, hf]
    · simp [evalExpr, evalStep, h, hf]
  · intro h
    simp [evalExpr, evalStep, h]
  · intro v h
    simp [evalExpr, evalStep, h]

/-- Witness for C9 at a missing name and at an unsupported value. -/
theorem C9_variable_reference_witness :
    evalExpr 1 exCtx (.varRef "missing") (freshEnv []) =
      (.ok (.fnone (some "missing")),
        { freshEnv [] with errors := (freshEnv []).errors ++
            (if (freshEnv []).current.error_for_missing_arg then
              [Err.refErr ("Unknown external: " ++ "missing")] else []) }) ∧
    evalExpr 1 exCtx (.varRef "bad") envBadArg =
      (.ok (.fnone (some "bad")),
        { envBadArg with errors := envBadArg.errors ++ [.typeErr "bad"] }) := by
  constructor
  · exact (C9_variable_reference 0 exCtx "missing" (freshEnv [])).1 (by decide)
  · exact (C9_variable_reference 0 exCtx "bad" envBadArg).2.1 (by decide)

theorem matchVal_fnone_left (ctx : Bundle) (n : Option String) (v : FluentValue) :
    matchVal ctx (.fnone n) v = false := by
  simp [matchVal, matchValF, isFluentNone]

theorem matchVal_fnone_right (ctx : Bundle) (v : FluentValue) (n : Option String) :
    matchVal ctx v (.fnone n) = false := by
  cases v <;> simp [matchVal, matchValF, isFluentNone, is_number]

theorem matchVal_int_str (ctx : Bundle) (n : Int) (s : String) :
    matchVal ctx (.int n) (.str s) = (ctx.plural_form n == s) := by
  simp [matchVal, matchValF, isFluentNone, is_number, pluralCompare]

theorem matchVal_str_int (ctx : Bundle) (s : String) (n : Int) :
    matchVal ctx (.str s) (.int n) = (ctx.plural_form n == s) := by
  simp [matchVal, matchValF, isFluentNone, is_number, pluralCompare]

theorem matchVal_str_str (ctx : Bundle) (a b : String) :
    matchVal ctx (.str a) (.str b) = (a == b) := by
  simp [matchVal, matchValF, isFluentNone, is_number, feq]

theorem matchVal_int_int (ctx : Bundle) (a b : Int) :
    matchVal ctx (.int a) (.int b) = (a == b) := by
  simp [matchVal, matchValF, isFluentNone, is_number, feq]

theorem scanVariants_no_match (f : Nat) (ctx : Bundle) (key : FluentValue) :
    ∀ (vs : List Variant) (env : Env),
      (∀ v ∈ vs, v.isDefault = false ∧
        ∃ nm, v.key = Expr.identifier nm ∧ matchVal ctx key (.str nm) = false) →
      ∀ default, scanVariants (evalExpr (f + 1) ctx) ctx key vs default env =
        (.ok default, env) := by
  intro vs
  induction vs with
  | nil => intro env h default; rfl
  | cons v rest ih =>
    intro env h default
    obtain ⟨hd, nm, hk, hm⟩ := h v (by simp)
    have hkey : evalExpr (f + 1) ctx v.key env = (.ok (.str nm), env) := by
      rw [hk]; simp [evalExpr, evalStep]
    simp [scanVariants, hd, hkey, hm,
      ih env (fun v2 hv2 => h v2 (by simp [hv2])) default]

/-- C1 (amended): when the selector evaluates to a key matched by no
variant and no variant carries the default flag, the select expression
does not produce a placeholder: the found-is-None access raises
(modelled by the noVariant fatal abort). -/
theorem C1_no_match_no_default (fuel : Nat) (ctx : Bundle) (selector : Expr)
    (variants : List Variant) (env env1 : Env) (key : FluentValue)
    (hsel : evalExpr fuel ctx selector env = (.ok key, env1))
    (hvar : ∀ v ∈ variants, v.isDefault = false ∧
      ∃ nm, v.key = Expr.identifier nm ∧ matchVal ctx key (.str nm) = false) :
    evalExpr (fuel + 1) ctx (.select selector variants) env =
      (.error .noVariant, env1) := by
  cases fuel with
  | zero => simp [evalExpr] at hsel
  | succ f =>
    have hscan := scanVariants_no_match f ctx key variants env1 hvar none
    show evalStep (evalExpr (f + 1)) ctx (.select selector variants) env =
      (.error .noVariant, env1)
    simp only [evalStep, hsel, hscan]

/-- C1 counterexample: a select expression with one non-default variant
whose key does not match resolves to the fatal noVariant abort (the
AttributeError of found.value on None), not to an empty or placeholder
result. -/
theorem C1_counterexample :
    evalExpr 3 exCtx
      (.select (.stringLit "b")
        [Variant.mk (.identifier "a") false (Pattern.mk 7 [.text "A"])])
      (freshEnv []) = (.error .noVariant, freshEnv []) := by
  decide

/-- Witness for the amended C1. -/
theorem C1_no_match_no_default_witness :
    evalExpr 2 exCtx
      (.select (.stringLit "b")
        [Variant.mk (.identifier "a") false (Pattern.mk 7 [.text "A"])])
      (freshEnv []) = (.error .noVariant, freshEnv []) :=
  C1_no_match_no_default 1 exCtx (.stringLit "b")
    [Variant.mk (.identifier "a") false (Pattern.mk 7 [.text "A"])]
    (freshEnv []) (freshEnv []) (.str "b") (by decide)
    (by
      intro v hv
      simp at hv
      subst hv
      exact ⟨rfl, "a", rfl, by decide⟩)

/-- C8: FluentNone on either side of the match function never matches;
a numeric key against a non-numeric variant key delegates to the plural
classifier of the bundle (comparing the category string with the
variant key), symmetrically when the sides are swapped; otherwise keys
compare by value equality.  A numeric selector 1 against variants [one]
and default [other] selects [one] under an English one/other category
set and [other] under a category set lacking one. -/
theorem C8_plural_matching :
    (∀ (ctx : Bundle) (n : Option String) (v : FluentValue),
      matchVal ctx (.fnone n) v = false ∧ matchVal ctx v (.fnone n) = false) ∧
    (∀ (ctx : Bundle) (n : Int) (s : String),
      matchVal ctx (.int n) (.str s) = (ctx.plural_form n == s) ∧
      matchVal ctx (.str s) (.int n) = (ctx.plural_form n == s)) ∧
    (∀ (ctx : Bundle) (a b : String), matchVal ctx (.str a) (.str b) = (a == b)) ∧
    (∀ (ctx : Bundle) (a b : Int), matchVal ctx (.int a) (.int b) = (a == b)) ∧
    evalExpr 3 exCtx selOneOther (freshEnv []) =
      (.ok (.str "one body"), { freshEnv [] with part_count := 1 }) ∧
    evalExpr 3 exCtxTr selOneOther (freshEnv []) =
      (.ok (.str "other body"), { freshEnv [] with part_count := 1 }) := by
  refine ⟨fun ctx n v => ⟨matchVal_fnone_left ctx n v, matchVal_fnone_right ctx v n⟩,
    fun ctx n s => ⟨matchVal_int_str ctx n s, matchVal_str_int ctx s n⟩,
    matchVal_str_str, matchVal_int_int, by decide, by decide⟩

theorem termRef_positional_error (fuel : Nat) (ctx : Bundle) (id : String)
    (attr : Option String) (pos : List Expr) (named : List NamedArg) (env : Env)
    (hpos : pos ≠ []) :
    ∃ t, ((evalExpr (fuel + 1) ctx
      (.termRef id attr (some (CallArgs.mk pos named))) env).2).errors =
      env.errors ++ Err.formatErr (reference_to_id true id attr) :: t := by
  have hp : pos.isEmpty = false := by
    cases pos with
    | nil => simp at hpos
    | cons a l => rfl
  have hev : ∀ e env, ErrExt env (evalExpr fuel ctx e env).2 :=
    fun e env => evalExpr_errExt fuel ctx e env
  have hpat : ∀ p env,
      ErrExt env (evalPatternWith (evalElemsWith (evalExpr fuel ctx) ctx) p env).2 :=
    evalPatternWith_errExt _ (evalElemsWith_errExt (evalExpr fuel ctx) ctx hev)
  rcases hn : evalNamedValsWith (evalExpr fuel ctx) named
      { env with errors := env.errors ++ [Err.formatErr (reference_to_id true id attr)] }
    with ⟨rn, env1⟩
  have h1 : ErrExt
      { env with errors := env.errors ++ [Err.formatErr (reference_to_id true id attr)] }
      env1 := by
    have := evalNamedValsWith_errExt (evalExpr fuel ctx) hev named
      { env with errors := env.errors ++ [Err.formatErr (reference_to_id true id attr)] }
    rwa [hn] at this
  cases rn with
  | error f =>
    obtain ⟨t, ht⟩ := h1
    refine ⟨t, ?_⟩
    have hred : (evalExpr (fuel + 1) ctx
        (.termRef id attr (some (CallArgs.mk pos named))) env).2 = env1 := by
      show (evalStep (evalExpr fuel) ctx
        (.termRef id attr (some (CallArgs.mk pos named))) env).2 = env1
      simp [evalStep, hp, hn]
    rw [hred, ht]
    simp
  | ok kwargs =>
    have h2 := termScopeWith_errExt _ hpat ctx id attr
      (kwargs.map (fun p => (p.1, ArgVal.fv p.2))) env1
    obtain ⟨t, ht⟩ := errExt_trans h1 h2
    refine ⟨t, ?_⟩
    have hred : (evalExpr (fuel + 1) ctx
        (.termRef id attr (some (CallArgs.mk pos named))) env).2 =
        (termScopeWith (evalPatternWith (evalElemsWith (evalExpr fuel ctx) ctx)) ctx
          id attr (kwargs.map (fun p => (p.1, ArgVal.fv p.2))) env1).2 := by
      show (evalStep (evalExpr fuel) ctx
        (.termRef id attr (some (CallArgs.mk pos named))) env).2 = _
      simp [evalStep, hp, hn]
    rw [hred, ht]
    simp

theorem termRef_fresh_scope (f : Nat) (ctx : Bundle) (id vn : String)
    (entry : Entry) (pid : Nat)
    (hterm : alookup ctx.terms id = some entry)
    (hval : entry.value = some (Pattern.mk pid [Expr.placeable (Expr.varRef vn)]))
    (hiso : ctx.use_isolating = false)
    (hlen : vn.length ≤ MAX_PART_LENGTH) :
    ∀ cargs : List (String × ArgVal),
      evalExpr (f + 3) ctx (.termRef id none none) (freshEnv cargs) =
        (.ok (.str vn), { freshEnv cargs with part_count := 1 }) := by
  intro cargs
  have h0 : evalExpr (f + 1) ctx (.varRef vn) (⟨0, [pid], [], ⟨[], false⟩⟩ : Env) =
      (.ok (.fnone (some vn)), ⟨0, [pid], [], ⟨[], false⟩⟩) := by
    simp [evalExpr, evalStep, alookup]
  have h1 : evalExpr (f + 2) ctx (.placeable (.varRef vn))
      (⟨0, [pid], [], ⟨[], false⟩⟩ : Env) =
      (.ok (.str vn), ⟨0, [pid], [], ⟨[], false⟩⟩) := by
    show evalStep (evalExpr (f + 1)) ctx (.placeable (.varRef vn)) _ = _
    simp [evalStep, h0, resolveVal, hiso]
  have hnl : ¬ (vn.length > MAX_PART_LENGTH) := by omega
  have h2 : elemStep (evalExpr (f + 2) ctx) ctx (.placeable (.varRef vn))
      (⟨0, [pid], [], ⟨[], false⟩⟩ : Env) = (.ok vn, ⟨0, [pid], [], ⟨[], false⟩⟩) := by
    simp [elemStep, h1, resolveVal, hnl]
  have h3 : evalElemsWith (evalExpr (f + 2) ctx) ctx [Expr.placeable (Expr.varRef vn)]
      (⟨0, [pid], [], ⟨[], false⟩⟩ : Env) = (.ok vn, ⟨0, [pid], [], ⟨[], false⟩⟩) := by
    simp [evalElemsWith, evalSeq, h2, concatParts]
  have h4 : evalPatternWith (evalElemsWith (evalExpr (f + 2) ctx) ctx)
      (Pattern.mk pid [Expr.placeable (Expr.varRef vn)])
      (⟨0, [], [], ⟨[], false⟩⟩ : Env) =
      (.ok (.str vn), ⟨1, [], [], ⟨[], false⟩⟩) := by
    norm_num [evalPatternWith, Pattern.id, Pattern.elements, Pattern.MAX_PARTS, h3,
      List.erase_cons_head]
  have h5 : evalEntryRefWith
      (evalPatternWith (evalElemsWith (evalExpr (f + 2) ctx) ctx)) ctx true id none
      (⟨0, [], [], ⟨[], false⟩⟩ : Env) =
      (.ok (.str vn), ⟨1, [], [], ⟨[], false⟩⟩) := by
    simp [evalEntryRefWith, hterm, hval, h4]
  have h6 : termScopeWith
      (evalPatternWith (evalElemsWith (evalExpr (f + 2) ctx) ctx)) ctx id none []
      (freshEnv cargs) = (.ok (.str vn), { freshEnv cargs with part_count := 1 }) := by
    simp [termScopeWith, freshEnv, h5]
  show evalStep (evalExpr (f + 2)) ctx (.termRef id none none) (freshEnv cargs) = _
  simpa [evalStep] using h6

theorem termRef_current_restored (fuel : Nat) (ctx : Bundle) (id : String)
    (attr : Option String) (arguments : Option CallArgs) (env : Env)
    (v : FluentValue) (env1 : Env)
    (h : evalExpr fuel ctx (.termRef id attr arguments) env = (.ok v, env1)) :
    env1.current = env.current :=
  (evalExpr_ok_pres fuel ctx (.termRef id attr arguments) env v env1 h).2

/-- C7: positional call arguments of a term reference append a collected
FormatError (first thing, before any other error of the evaluation) and
are otherwise ignored; resolving a term swaps in a fresh argument scope
holding exactly the named call-site arguments (empty when none are
supplied, so the term body does not see the caller arguments: the
variable v resolves to its silent FluentNone fallback without a
collected error even when the caller passed v) with missing-argument
reporting disabled; and the previous scope is restored whenever the
reference resolution returns, with only the part count of the rest of
the environment advanced. -/
theorem C7_term_reference_scope :
    (∀ (fuel : Nat) (ctx : Bundle) (id : String) (attr : Option String)
      (pos : List Expr) (named : List NamedArg) (env : Env), pos ≠ [] →
      ∃ t, ((evalExpr (fuel + 1) ctx
        (.termRef id attr (some (CallArgs.mk pos named))) env).2).errors =
        env.errors ++ Err.formatErr (reference_to_id true id attr) :: t) ∧
    (∀ (f : Nat) (ctx : Bundle) (id vn : String) (entry : Entry) (pid : Nat),
      alookup ctx.terms id = some entry →
      entry.value = some (Pattern.mk pid [Expr.placeable (Expr.varRef vn)]) →
      ctx.use_isolating = false →
      vn.length ≤ MAX_PART_LENGTH →
      ∀ cargs : List (String × ArgVal),
        evalExpr (f + 3) ctx (.termRef id none none) (freshEnv cargs) =
          (.ok (.str vn), { freshEnv cargs with part_count := 1 })) ∧
    (∀ (fuel : Nat) (ctx : Bundle) (id : String) (attr : Option String)
      (arguments : Option CallArgs) (env : Env) (v : FluentValue) (env1 : Env),
      evalExpr fuel ctx (.termRef id attr arguments) env = (.ok v, env1) →
      env1.current = env.current) :=
  ⟨termRef_positional_error,
    fun f ctx id vn entry pid h1 h2 h3 h4 =>
      termRef_fresh_scope f ctx id vn entry pid h1 h2 h3 h4,
    fun fuel ctx id attr arguments env v env1 h =>
      termRef_current_restored fuel ctx id attr arguments env v env1 h⟩

/-- Witness for C7: positional arguments to an unknown term produce the
FormatError first; a term body variable falls back silently to its name
even though the caller passed that variable; the scope including the
caller arguments is restored after the ok return. -/
theorem C7_term_reference_scope_witness :
    (∃ t, ((evalExpr 1 exCtx
      (.termRef "t" none (some (CallArgs.mk [Expr.stringLit "x"] [])))
      (freshEnv [])).2).errors =
      (freshEnv []).errors ++ Err.formatErr (reference_to_id true "t" none) :: t) ∧
    evalExpr 3 exBundleTerm (.termRef "t" none none)
      (freshEnv [("v", ArgVal.fv (.str "CALLER"))]) =
      (.ok (.str "v"),
        { freshEnv [("v", ArgVal.fv (.str "CALLER"))] with part_count := 1 }) ∧
    ({ freshEnv [("v", ArgVal.fv (.str "CALLER"))] with part_count := 1 } : Env).current =
      (freshEnv [("v", ArgVal.fv (.str "CALLER"))]).current := by
  refine ⟨?_, ?_, ?_⟩
  · exact C7_term_reference_scope.1 0 exCtx "t" none [Expr.stringLit "x"] []
      (freshEnv []) (by simp)
  · exact C7_term_reference_scope.2.1 0 exBundleTerm "t" "v"
      { value := some (Pattern.mk 31 [Expr.placeable (Expr.varRef "v")]),
        attributes := [] } 31 rfl rfl rfl (by decide)
      [("v", ArgVal.fv (.str "CALLER"))]
  · exact C7_term_reference_scope.2.2 3 exBundleTerm "t" none none
      (freshEnv [("v", ArgVal.fv (.str "CALLER"))]) (.str "v")
      { freshEnv [("v", ArgVal.fv (.str "CALLER"))] with part_count := 1 }
      (by decide)

theorem fvScanList_append (fuel : Nat) (msg_id : String)
    (args : List (String × ArgVal)) :
    ∀ xs ys : List Bundle,
      fvScanList fuel (xs ++ ys) msg_id args =
        match fvScanList fuel xs msg_id args with
        | some r => some r
        | none => fvScanList fuel ys msg_id args := by
  intro xs ys
  induction xs with
  | nil => simp [fvScanList]
  | cons b rest ih =>
    cases ht : fvTryBundle fuel b msg_id args with
    | some r => simp [fvScanList, ht]
    | none => simp [fvScanList, ht, ih]

theorem fvPull_split (fuel : Nat) (msg_id : String) (args : List (String × ArgVal)) :
    ∀ it : List Bundle,
      (fvPull fuel msg_id args it).2.1 ++ (fvPull fuel msg_id args it).2.2 = it := by
  intro it
  induction it with
  | nil => simp [fvPull]
  | cons b rest ih =>
    cases ht : fvTryBundle fuel b msg_id args with
    | some r => simp [fvPull, ht]
    | none => simp [fvPull, ht, ih]

theorem fvPull_result (fuel : Nat) (msg_id : String) (args : List (String × ArgVal)) :
    ∀ it : List Bundle,
      (fvPull fuel msg_id args it).1 =
        match fvScanList fuel it msg_id args with
        | some r => r
        | none => .ok msg_id := by
  intro it
  induction it with
  | nil => simp [fvPull, fvScanList]
  | cons b rest ih =>
    cases ht : fvTryBundle fuel b msg_id args with
    | some r => simp [fvPull, fvScanList, ht]
    | none => simp [fvPull, fvScanList, ht, ih]

theorem fvPull_scan_pulled (fuel : Nat) (msg_id : String)
    (args : List (String × ArgVal)) :
    ∀ it : List Bundle,
      fvScanList fuel (fvPull fuel msg_id args it).2.1 msg_id args =
        fvScanList fuel it msg_id args := by
  intro it
  induction it with
  | nil => simp [fvPull, fvScanList]
  | cons b rest ih =>
    cases ht : fvTryBundle fuel b msg_id args with
    | some r => simp [fvPull, fvScanList, ht]
    | none => simp [fvPull, fvScanList, ht, ih]

theorem fvScanList_none (fuel : Nat) (msg_id : String)
    (args : List (String × ArgVal)) :
    ∀ bs : List Bundle, (∀ b ∈ bs, fvTryBundle fuel b msg_id args = none) →
      fvScanList fuel bs msg_id args = none := by
  intro bs
  induction bs with
  | nil => intro h; rfl
  | cons b rest ih =>
    intro h
    have hb := h b (by simp)
    simp [fvScanList, hb, ih (fun b2 hm => h b2 (by simp [hm]))]

theorem fvScanList_first (fuel : Nat) (msg_id : String)
    (args : List (String × ArgVal)) :
    ∀ (pre : List Bundle) (b : Bundle) (post : List Bundle) (r : Except Fatal String),
      (∀ b2 ∈ pre, fvTryBundle fuel b2 msg_id args = none) →
      fvTryBundle fuel b msg_id args = some r →
      fvScanList fuel (pre ++ b :: post) msg_id args = some r := by
  intro pre
  induction pre with
  | nil =>
    intro b post r h hb
    simp [fvScanList, hb]
  | cons x rest ih =>
    intro b post r h hb
    have hx := h x (by simp)
    simp [fvScanList, hx, ih b post r (fun b2 hm => h b2 (by simp [hm])) hb]

theorem fvPull_all_none (fuel : Nat) (msg_id : String)
    (args : List (String × ArgVal)) :
    ∀ it : List Bundle, fvScanList fuel it msg_id args = none →
      fvPull fuel msg_id args it = (.ok msg_id, it, []) := by
  intro it
  induction it with
  | nil => intro h; rfl
  | cons b rest ih =>
    intro h
    cases ht : fvTryBundle fuel b msg_id args with
    | some r => simp [fvScanList, ht] at h
    | none =>
      have hrest : fvScanList fuel rest msg_id args = none := by
        simpa [fvScanList, ht] using h
      simp [fvPull, ht, ih hrest]

theorem format_value_eq (fuel : Nat) (st : LocState) (msg_id : String)
    (args : List (String × ArgVal)) :
    (format_value fuel st msg_id args).1 =
      match fvScanList fuel (st.bundle_cache ++ st.bundle_it) msg_id args with
      | some r => r
      | none => .ok msg_id := by
  cases hc : fvScanList fuel st.bundle_cache msg_id args with
  | some r => simp [format_value, hc, fvScanList_append]
  | none => simp [format_value, hc, fvScanList_append, fvPull_result]

theorem format_value_state (fuel : Nat) (st : LocState) (msg_id : String)
    (args : List (String × ArgVal)) :
    ((format_value fuel st msg_id args).2).bundle_cache ++
      ((format_value fuel st msg_id args).2).bundle_it =
      st.bundle_cache ++ st.bundle_it := by
  cases hc : fvScanList fuel st.bundle_cache msg_id args with
  | some r => simp [format_value, hc]
  | none => simp [format_value, hc, List.append_assoc, fvPull_split]

/-- C10: formatting the same message id with the same arguments twice in
a row through the caching bundle sequence yields the same result both
times, and the second call leaves the cache state exactly where the
first call left it: the bundles and the resolver are read-only for the
resolution, the per-call environment is fresh, and the cache only
materialises the same fixed bundle sequence. -/
theorem C10_repeat_format_value (fuel : Nat) (st : LocState) (msg_id : String)
    (args : List (String × ArgVal)) :
    (format_value fuel (format_value fuel st msg_id args).2 msg_id args).1 =
      (format_value fuel st msg_id args).1 ∧
    (format_value fuel (format_value fuel st msg_id args).2 msg_id args).2 =
      (format_value fuel st msg_id args).2 := by
  constructor
  · rw [format_value_eq, format_value_eq, format_value_state]
  · cases hc : fvScanList fuel st.bundle_cache msg_id args with
    | some r =>
      have hst1 : (format_value fuel st msg_id args).2 = st := by
        simp [format_value, hc]
      rw [hst1]
      simp [format_value, hc]
    | none =>
      have hst1 : (format_value fuel st msg_id args).2 =
          ⟨st.bundle_cache ++ (fvPull fuel msg_id args st.bundle_it).2.1,
            (fvPull fuel msg_id args st.bundle_it).2.2⟩ := by
        simp [format_value, hc]
      cases hit : fvScanList fuel st.bundle_it msg_id args with
      | some r =>
        have hscan1 : fvScanList fuel
            (st.bundle_cache ++ (fvPull fuel msg_id args st.bundle_it).2.1)
            msg_id args = some r := by
          simp [fvScanList_append, hc, fvPull_scan_pulled, hit]
        rw [hst1]
        simp [format_value, hscan1]
      | none =>
        have hpull := fvPull_all_none fuel msg_id args st.bundle_it hit
        have hst1b : (format_value fuel st msg_id args).2 =
            ⟨st.bundle_cache ++ st.bundle_it, []⟩ := by
          rw [hst1, hpull]
        have hscan1 : fvScanList fuel (st.bundle_cache ++ st.bundle_it) msg_id args =
            none := by
          simp [fvScanList_append, hc, hit]
        rw [hst1b]
        simp [format_value, hscan1, fvPull]

/-- C2 (amended): format_value walks the cached and lazily materialised
bundle sequence in order and returns the format result of the first
bundle that has the message with a non-None value pattern; if no bundle
qualifies (in particular for a missing message id) the raw message id is
returned, with no exception.  A fatal resource abort raised while
formatting the chosen pattern propagates out of format_value (see the
counterexample) instead of falling back. -/
theorem C2_format_value (fuel : Nat) (st : LocState) (msg_id : String)
    (args : List (String × ArgVal)) :
    ((format_value fuel st msg_id args).1 =
      match fvScanList fuel (st.bundle_cache ++ st.bundle_it) msg_id args with
      | some r => r
      | none => .ok msg_id) ∧
    ((∀ b ∈ st.bundle_cache ++ st.bundle_it, fvTryBundle fuel b msg_id args = none) →
      (format_value fuel st msg_id args).1 = .ok msg_id) ∧
    (∀ (pre : List Bundle) (b : Bundle) (post : List Bundle) (r : Except Fatal String),
      st.bundle_cache ++ st.bundle_it = pre ++ b :: post →
      (∀ b2 ∈ pre, fvTryBundle fuel b2 msg_id args = none) →
      fvTryBundle fuel b msg_id args = some r →
      (format_value fuel st msg_id args).1 = r) := by
  refine ⟨format_value_eq fuel st msg_id args, ?_, ?_⟩
  · intro h
    rw [format_value_eq, fvScanList_none fuel msg_id args _ h]
  · intro pre b post r hsplit hpre hb
    rw [format_value_eq, hsplit, fvScanList_first fuel msg_id args pre b post r hpre hb]

/-- C2 counterexample: a message whose value pattern overflows the part
budget makes format_value propagate the fatal abort (the ValueError
escaping, since fallback.py installs no handler) instead of returning a
string, refuting the never-raises part of the claim. -/
theorem C2_counterexample :
    (format_value 1 ⟨[], [exBundleBig]⟩ "m" []).1 = .error .tooManyParts := by
  have h1 : evalPattern 1 exBundleBig bigPattern (freshEnv []) =
      (.error .tooManyParts, freshEnv []) :=
    evalPattern_overflow 1 exBundleBig bigPattern (freshEnv [])
      (by simp [bigPattern, Pattern.id, freshEnv])
      (by rw [bigPattern_elements_length]; norm_num [freshEnv, Pattern.MAX_PARTS])
  have hfp : format_pattern 1 exBundleBig bigPattern [] = .error .tooManyParts := by
    simp [format_pattern, h1]
  have hlk : alookup exBundleBig.messages "m" =
      some { value := some bigPattern, attributes := [] } := rfl
  have htry : fvTryBundle 1 exBundleBig "m" [] = some (.error .tooManyParts) := by
    simp [fvTryBundle, Bundle.has_message, Bundle.get_message, hlk, hfp, Except.map]
  simp [format_value, fvScanList, fvPull, htry]

/-- Witness for the amended C2: a missing id falls back to the id with
no exception, and the first qualifying bundle wins. -/
theorem C2_format_value_witness :
    (format_value 1 ⟨[], [exCtx]⟩ "missing" []).1 = .ok "missing" ∧
    (format_value 1 ⟨[], [exBundleM]⟩ "m" []).1 = .ok "hello" := by
  constructor
  · exact (C2_format_value 1 ⟨[], [exCtx]⟩ "missing" []).2.1
      (by
        intro b hb
        simp at hb
        subst hb
        rfl)
  · exact (C2_format_value 1 ⟨[], [exBundleM]⟩ "m" []).2.2 [] exBundleM []
      (.ok "hello") (by simp) (by simp) (by decide)

end FluentRuntime
